import Mathlib

/-!
Shallow embedding of the DNS wire-format codec (Rust crate `dns`) and proofs
about the claims of its specification.

Modelling conventions:
* A byte buffer is a `List Nat`; every byte produced by the embedded code is
  kept below 256 by explicit `% 256` masks exactly where the Rust types
  (`u8`/`u16`/`u32`) force truncation.
* A `DomainString` (the crate's textual domain-name type) is modelled as the
  list of its UTF-8 bytes, so `split('.')` becomes `List.splitOn 46` and byte
  lengths coincide with the Rust `len()` calls.
* Fallible Rust functions returning `io::Result`/`Result<_, Error>` become
  `Except DnsError _`.  A Rust panic (an out-of-bounds slice index) is
  modelled by the distinguished error `DnsError.sliceOutOfBounds`.
* Loops are modelled by fuel recursion; the entry points supply a concrete
  fuel, and `DnsError.fuelOut` marks fuel exhaustion.  Termination of the
  domain-name decoder is proved as a theorem: with the canonical fuel the
  decoder never exhausts its fuel.
-/

namespace Dns

/-- Error kinds of the crate, one constructor per distinct error produced by
the code paths modelled here.  String payloads of the Rust errors are dropped
except for the label carried by the domain-name encoder's error. -/
inductive DnsError where
  | bufTooSmall
  | badResponseCode
  | badExtendedResponseCode
  | tooManyPointers
  | budgetExceeded
  | badRdata
  | labelError (seg : List Nat)
  | overflowHeader
  | badRdlength
  | badAddressFamily
  | badNetmask
  | badAddress
  | invalidNetwork
  | hexError
  | tooMuchRecursion
  | sliceOutOfBounds
  | fuelOut
  deriving DecidableEq

/-- Big-endian bytes of a 16-bit value (`u16::to_be_bytes`). -/
def u16be (v : Nat) : List Nat := [v / 256 % 256, v % 256]

/-- Big-endian bytes of a 32-bit value (`u32::to_be_bytes`). -/
def u32be (v : Nat) : List Nat :=
  [v / 16777216 % 256, v / 65536 % 256, v / 256 % 256, v % 256]

/-- Big-endian octets of an IPv4 address value (`Ipv4Addr::octets`). -/
def ipv4Octets (v : Nat) : List Nat := u32be v

/-- Big-endian octets of an IPv6 address value (`Ipv6Addr::octets`). -/
def ipv6Octets (v : Nat) : List Nat :=
  (List.range 16).map fun i => v / 2 ^ (8 * (15 - i)) % 256

/-- Read one byte at `pos` (`Cursor::read_u8`); fails past the end. -/
def readU8 (buf : List Nat) (pos : Nat) : Except DnsError (Nat × Nat) :=
  if pos < buf.length then .ok (buf.getD pos 0, pos + 1) else .error .bufTooSmall

/-- Read a big-endian `u16` (`read_u16::<BigEndian>`). -/
def readU16 (buf : List Nat) (pos : Nat) : Except DnsError (Nat × Nat) := do
  let (a, pos) ← readU8 buf pos
  let (b, pos) ← readU8 buf pos
  .ok (a * 256 + b, pos)

/-- Read a big-endian `u32` (`read_u32::<BigEndian>`). -/
def readU32 (buf : List Nat) (pos : Nat) : Except DnsError (Nat × Nat) := do
  let (a, pos) ← readU16 buf pos
  let (b, pos) ← readU16 buf pos
  .ok (a * 65536 + b, pos)

/-- Read exactly `n` bytes (`Read::read_exact`). -/
def readExact (buf : List Nat) (pos n : Nat) : Except DnsError (List Nat × Nat) :=
  if pos + n ≤ buf.length then .ok ((buf.drop pos).take n, pos + n)
  else .error .bufTooSmall

/-- `util::set_value_offset`: overwrite two bytes at `start` with the
big-endian encoding of `v`.  Every call site in the crate patches inside the
already-written part of the buffer, so `List.set` faithfully models the
`copy_from_slice`. -/
def set_value_offset (buf : List Nat) (start v : Nat) : List Nat :=
  (buf.set start (v / 256 % 256)).set (start + 1) (v % 256)

/-- `util::set_rd_length`: patch the two bytes just before the end. -/
def set_rd_length (buf : List Nat) (v : Nat) : List Nat :=
  set_value_offset buf (buf.length - 2) v

/-- `util::set_rd`: patch the rdata length, then append the payload. -/
def set_rd (buf : List Nat) (data : List Nat) : List Nat :=
  set_rd_length buf data.length ++ data

/-! ## Domain-name codec (`util.rs`) -/

/-- `MAX_DOMAIN_NAME_WIRE_OCTETS` (RFC 1035 section 2.3.4). -/
def MAX_DOMAIN_NAME_WIRE_OCTETS : Nat := 255

/-- `MAX_COMPRESSION_POINTERS = (255 + 1) / 2 - 2 = 126`. -/
def MAX_COMPRESSION_POINTERS : Nat := (MAX_DOMAIN_NAME_WIRE_OCTETS + 1) / 2 - 2

/-- `util::is_domain_name_label_special`. -/
def is_domain_name_label_special (b : Nat) : Bool :=
  b = 46 || b = 32 || b = 39 || b = 64 || b = 59 || b = 40 || b = 41 || b = 34 || b = 92

/-- `util::escape_byte`: the `\DDD` decimal escape.  The Rust code reads the
four characters at index `b * 4` of a constant table whose entries are
exactly a backslash followed by the three decimal digits of `b`. -/
def escape_byte (b : Nat) : List Nat :=
  [92, 48 + b / 100 % 10, 48 + b / 10 % 10, 48 + b % 10]

/-- Display form of one label byte as pushed by `unpack_domain_name`. -/
def display_label_byte (b : Nat) : List Nat :=
  if is_domain_name_label_special b then [92, b]
  else if b < 32 ∨ 126 < b then escape_byte b
  else [b]

/-- Display form of a whole label (the bytes `buf[off..off+c]`). -/
def display_label (bs : List Nat) : List Nat := bs.flatMap display_label_byte

/-- The loop of `util::unpack_domain_name`.  State: current offset `off`, the
accumulated display string `s`, the resume position `off1`, the remaining
wire-octet `budget` (an `isize` in Rust) and the count `ptr` of compression
pointers followed.  Fuel recursion; `fuelOut` is proved unreachable for the
fuel used by the entry point. -/
def unpack_domain_name_go (buf : List Nat) (fuel : Nat) (off : Nat) (s : List Nat)
    (off1 : Nat) (budget : Int) (ptr : Nat) : Except DnsError (List Nat × Nat) :=
  match fuel with
  | 0 => .error .fuelOut
  | fuel + 1 =>
    if buf.length ≤ off then .error .bufTooSmall
    else
      let c := buf.getD off 0
      if c &&& 0xC0 = 0 then
        if c = 0 then
          -- end of name
          let off1 := if ptr = 0 then off + 1 else off1
          if s.length = 0 then .ok ([46], off1) else .ok (s, off1)
        else if buf.length < off + 1 + c then .error .bufTooSmall
        else
          let budget := budget - (c + 1)
          if budget < 0 then .error .budgetExceeded
          else
            let label := ((buf.drop (off + 1)).take c)
            unpack_domain_name_go buf fuel (off + 1 + c)
              (s ++ display_label label ++ [46]) off1 budget ptr
      else if c &&& 0xC0 = 0xC0 then
        if buf.length ≤ off + 1 then .error .bufTooSmall
        else
          let c1 := buf.getD (off + 1) 0
          let off1 := if ptr = 0 then off + 2 else off1
          let ptr := ptr + 1
          if MAX_COMPRESSION_POINTERS < ptr then .error .tooManyPointers
          else unpack_domain_name_go buf fuel (((c ^^^ 0xC0) <<< 8) ||| c1) s off1 budget ptr
      else .error .badRdata

/-- Fuel sufficient for any run of the decoder loop (proved below). -/
def unpack_fuel (buf : List Nat) : Nat := 128 * (buf.length + 1)

/-- `util::unpack_domain_name`: decode the name at `off`, returning the
display string and the position after the name (not counting bytes read while
following pointers). -/
def unpack_domain_name (buf : List Nat) (off : Nat) : Except DnsError (List Nat × Nat) :=
  unpack_domain_name_go buf (unpack_fuel buf) off [] 0 255 0

/-- Specification-side instrumentation: the wire octets charged against the
budget by the literal labels along the decoder's traversal (each label's
length plus one), computed without any budget check.  `none` when the
traversal aborts for a reason other than the budget. -/
def label_octets_go (buf : List Nat) (fuel off ptr : Nat) : Option Nat :=
  match fuel with
  | 0 => none
  | fuel + 1 =>
    if buf.length ≤ off then none
    else
      let c := buf.getD off 0
      if c &&& 0xC0 = 0 then
        if c = 0 then some 0
        else if buf.length < off + 1 + c then none
        else (label_octets_go buf fuel (off + 1 + c) ptr).map (fun n => c + 1 + n)
      else if c &&& 0xC0 = 0xC0 then
        if buf.length ≤ off + 1 then none
        else
          let c1 := buf.getD (off + 1) 0
          let ptr := ptr + 1
          if MAX_COMPRESSION_POINTERS < ptr then none
          else label_octets_go buf fuel (((c ^^^ 0xC0) <<< 8) ||| c1) ptr
      else none

/-- Wire octets of the literal labels of the name at `off`. -/
def label_octets (buf : List Nat) (off : Nat) : Option Nat :=
  label_octets_go buf (unpack_fuel buf) off 0

/-- Specification-side instrumentation: the compression-pointer targets
followed (in order) by the decoder's traversal, including the traversal that
ends in an error. -/
def pointer_targets_go (buf : List Nat) (fuel off : Nat) (budget : Int) (ptr : Nat) :
    List Nat :=
  match fuel with
  | 0 => []
  | fuel + 1 =>
    if buf.length ≤ off then []
    else
      let c := buf.getD off 0
      if c &&& 0xC0 = 0 then
        if c = 0 then []
        else if buf.length < off + 1 + c then []
        else
          let budget := budget - (c + 1)
          if budget < 0 then []
          else pointer_targets_go buf fuel (off + 1 + c) budget ptr
      else if c &&& 0xC0 = 0xC0 then
        if buf.length ≤ off + 1 then []
        else
          let c1 := buf.getD (off + 1) 0
          let ptr := ptr + 1
          if MAX_COMPRESSION_POINTERS < ptr then []
          else
            let target := ((c ^^^ 0xC0) <<< 8) ||| c1
            target :: pointer_targets_go buf fuel target budget ptr
      else []

/-- Pointer targets followed when decoding the name at `off`. -/
def pointer_targets (buf : List Nat) (off : Nat) : List Nat :=
  pointer_targets_go buf (unpack_fuel buf) off 255 0

/-- The per-label body of `util::pack_domain_name` / `cal_domain_name_len`:
split on `.`, skip empty segments.  The crate is built without the `with_idna`
feature, so `label_to_ascii` is the identity and never fails. -/
def pack_labels (labels : List (List Nat)) (buf : List Nat) : Except DnsError (List Nat) :=
  match labels with
  | [] => .ok (buf ++ [0])
  | seg :: rest =>
    if seg = [] then pack_labels rest buf
    else if seg.length ≤ 255 then pack_labels rest (buf ++ [seg.length] ++ seg)
    else .error (.labelError seg)

/-- `util::pack_domain_name`: encode the textual name (as UTF-8 bytes) into
length-prefixed labels, terminated by a zero byte, appended to `buf`. -/
def pack_domain_name (input : List Nat) (buf : List Nat) : Except DnsError (List Nat) :=
  pack_labels (input.splitOn 46) buf

/-! ## Recursive label decoder (`msg/label.rs`) -/

/-- `RECURSION_LIMIT` of `msg/label.rs`. -/
def RECURSION_LIMIT : Nat := 8

/-- `label::read_string_recursive`.  A `Labels` value is its list of
`(length, segment-bytes)` pairs.  The result is the final segment list, the
`bytes_read` count of the frame and the final cursor position (the Rust
caller observes the cursor).  Reading the `byte` label characters one by one
with `read_u8` succeeds exactly when all of them are in bounds, which is
`readExact`. -/
def read_string_recursive_go (buf : List Nat) (fuel : Nat)
    (labels : List (Nat × List Nat)) (pos : Nat) (recursions : List Nat)
    (bytes_read : Nat) : Except DnsError (List (Nat × List Nat) × Nat × Nat) :=
  match fuel with
  | 0 => .error .fuelOut
  | fuel + 1 => do
    let (byte, pos) ← readU8 buf pos
    let bytes_read := bytes_read + 1
    if byte = 0 then .ok (labels, bytes_read, pos)
    else if 0xC0 ≤ byte then
      let name_one := byte - 0xC0
      let (name_two, pos) ← readU8 buf pos
      let bytes_read := bytes_read + 1
      let offset := name_one * 256 + name_two
      if offset ∈ recursions then .error .tooMuchRecursion
      else
        let recursions := recursions ++ [offset]
        if RECURSION_LIMIT ≤ recursions.length then .error .tooMuchRecursion
        else do
          let (labels, _, _) ← read_string_recursive_go buf fuel labels offset recursions bytes_read
          .ok (labels, bytes_read, pos)
    else do
      let (label, pos) ← readExact buf pos byte
      let bytes_read := bytes_read + byte
      read_string_recursive_go buf fuel (labels ++ [(byte, label)]) pos recursions bytes_read

/-- `Labels::unpack`: decode from the start of `buf` with no recorded
recursions.  The fuel covers the depth-8 recursion bound times the buffer
length. -/
def Labels_unpack (buf : List Nat) : Except DnsError (List (Nat × List Nat) × Nat × Nat) :=
  read_string_recursive_go buf (9 * (buf.length + 2)) [] 0 [] 0

/-- A buffer whose compression-pointer chain revisits offset 0: a 3-byte
label `aaa` followed by a pointer back to offset 0. -/
def c4buf : List Nat := [3, 97, 97, 97, 0xC0, 0]

/-- A textual name of two 130-byte labels: its wire encoding is
`1 + 130 + 1 + 130 + 1 = 263` octets, above the 255-octet RFC limit. -/
def c7name : List Nat := List.replicate 130 97 ++ 46 :: List.replicate 130 97

/-- One maximal 63-byte wire label. -/
def c5label : List Nat := 63 :: List.replicate 63 97

/-- A wire buffer holding a name of four 63-byte labels: its literal labels
account for `4 * 64 = 256` wire octets, above the 255-octet budget. -/
def c5buf : List Nat := c5label ++ c5label ++ c5label ++ c5label ++ [0]

deriving instance DecidableEq for Except

/-! ## Addresses and EDNS0 options (`types/edns/edns0.rs`) -/

/-- `IpAddr`: a v4 address is its 32-bit value, a v6 address its 128-bit
value. -/
inductive IpAddr where
  | V4 (v : Nat)
  | V6 (v : Nat)
  deriving DecidableEq

/-- `Ipv6Addr::to_ipv4_mapped`: defined exactly on `::ffff:a.b.c.d`. -/
def to_ipv4_mapped (v : Nat) : Option Nat :=
  if v >>> 32 = 0xFFFF then some (v &&& 0xFFFFFFFF) else none

/-- `Ipv4Addr::to_ipv6_mapped`. -/
def to_ipv6_mapped (v : Nat) : Nat := (0xFFFF <<< 32) ||| v

/-- `ipnetwork::Ipv4Network::new(addr, p).network()`: fails for a netmask
above 32, otherwise masks the address down to its network. -/
def ipv4_network (addr pfx : Nat) : Except DnsError Nat :=
  if 32 < pfx then .error .invalidNetwork
  else .ok (addr &&& (0xFFFFFFFF - (2 ^ (32 - pfx) - 1)))

/-- `ipnetwork::Ipv6Network::new(addr, p).network()`. -/
def ipv6_network (addr pfx : Nat) : Except DnsError Nat :=
  if 128 < pfx then .error .invalidNetwork
  else .ok (addr &&& (2 ^ 128 - 1 - (2 ^ (128 - pfx) - 1)))

/-- Big-endian byte-list value (`BigEndian::read_u32` / `read_u128` over the
first bytes of a slice). -/
def beBytesToNat (bs : List Nat) : Nat := bs.foldl (fun acc b => acc * 256 + b) 0

/-- Lowercase hex digit (`hex::encode`). -/
def hexDigitChar (n : Nat) : Char :=
  if n < 10 then Char.ofNat (48 + n) else Char.ofNat (87 + n)

/-- `hex::encode`. -/
def hexEncode (bs : List Nat) : String :=
  String.mk (bs.flatMap fun b => [hexDigitChar (b / 16 % 16), hexDigitChar (b % 16)])

/-- Value of one hex digit (`hex::decode`), upper or lower case. -/
def hexDigitVal (c : Char) : Option Nat :=
  if 48 ≤ c.toNat ∧ c.toNat ≤ 57 then some (c.toNat - 48)
  else if 97 ≤ c.toNat ∧ c.toNat ≤ 102 then some (c.toNat - 87)
  else if 65 ≤ c.toNat ∧ c.toNat ≤ 70 then some (c.toNat - 55)
  else none

/-- `hex::decode_to_slice`: fails on an odd-length string or a bad digit. -/
def hexDecodePairs : List Char → Except DnsError (List Nat)
  | [] => .ok []
  | [_] => .error .hexError
  | a :: b :: rest =>
    match hexDigitVal a, hexDigitVal b with
    | some hi, some lo => do
      let tail ← hexDecodePairs rest
      .ok ((hi * 16 + lo) :: tail)
    | _, _ => .error .hexError

def hexDecode (s : String) : Except DnsError (List Nat) := hexDecodePairs s.data

/-- `edns0::NSID`. -/
structure NSID where
  nsid : String
  deriving DecidableEq

/-- `edns0::SubNet` (RFC 7871 Client-Subnet). -/
structure SubNet where
  family : Nat
  source_netmask : Nat
  source_scope : Nat
  address : IpAddr
  deriving DecidableEq

/-- `edns0::LOCAL`: an opaque option with its raw code. -/
structure LOCAL where
  code : Nat
  data : List Nat
  deriving DecidableEq

/-- `edns0::EDNS0`. -/
inductive EDNS0 where
  | Nid (val : NSID)
  | SubNet (val : SubNet)
  | Local (val : LOCAL)
  deriving DecidableEq

/-- `IEdns0::option` of each variant (`EDNS0NSID = 3`, `EDNS0SUBNET = 8`). -/
def EDNS0.option : EDNS0 → Nat
  | .Nid _ => 3
  | .SubNet _ => 8
  | .Local v => v.code

/-- `NSID::pack`: hex-decode the stored identifier into the buffer. -/
def NSID.pack (v : NSID) (buf : List Nat) : Except DnsError (List Nat) := do
  let bytes ← hexDecode v.nsid
  .ok (buf ++ bytes)

/-- `LOCAL::pack`. -/
def LOCAL.pack (v : LOCAL) (buf : List Nat) : Except DnsError (List Nat) :=
  .ok (buf ++ v.data)

/-- `SubNet::pack`: writes family, netmasks, then the network-truncated
address; validates the netmask range per family. -/
def SubNet.pack (sn : SubNet) (buf : List Nat) : Except DnsError (List Nat) :=
  let buf := buf ++ u16be sn.family ++ [sn.source_netmask % 256, sn.source_scope % 256]
  if sn.family = 0 then
    if sn.source_netmask ≠ 0 then .error .badAddressFamily else .ok buf
  else if sn.family = 1 then
    if 32 < sn.source_netmask then .error .badNetmask
    else do
      let address ←
        match sn.address with
        | .V4 v => Except.ok v
        | .V6 v =>
          match to_ipv4_mapped v with
          | some v4 => Except.ok v4
          | none => Except.error .badAddress
      let network ← ipv4_network address sn.source_netmask
      .ok (buf ++ ipv4Octets network)
  else if sn.family = 2 then
    if 128 < sn.source_netmask then .error .badNetmask
    else do
      let address :=
        match sn.address with
        | .V4 v => to_ipv6_mapped v
        | .V6 v => v
      let network ← ipv6_network address sn.source_netmask
      .ok (buf ++ ipv6Octets network)
  else .error .badAddressFamily

/-- `SubNet::unpack`: checks only that four bytes are present, then reads the
address bytes unconditionally; the out-of-bounds reads of
`BigEndian::read_u32(&bs[4..])` / `read_u128(&bs[4..])` (a Rust panic when
fewer than 4 resp. 16 bytes follow) are the `sliceOutOfBounds` outcome. -/
def SubNet.unpack (bs : List Nat) : Except DnsError SubNet :=
  if bs.length < 4 then .error .bufTooSmall
  else
    let family := bs.getD 0 0 * 256 + bs.getD 1 0
    let source_netmask := bs.getD 2 0
    let source_scope := bs.getD 3 0
    if family = 0 then
      if source_netmask ≠ 0 then .error .badAddressFamily
      else .ok ⟨family, source_netmask, source_scope, .V4 0⟩
    else if family = 1 then
      if 32 < source_netmask ∨ 32 < source_scope then .error .badNetmask
      else if bs.length < 8 then .error .sliceOutOfBounds
      else .ok ⟨family, source_netmask, source_scope, .V4 (beBytesToNat ((bs.drop 4).take 4))⟩
    else if family = 2 then
      if 128 < source_netmask ∨ 128 < source_scope then .error .badNetmask
      else if bs.length < 20 then .error .sliceOutOfBounds
      else .ok ⟨family, source_netmask, source_scope, .V6 (beBytesToNat ((bs.drop 4).take 16))⟩
    else .error .badAddressFamily

/-- `EDNS0::pack` dispatch. -/
def EDNS0.pack : EDNS0 → List Nat → Except DnsError (List Nat)
  | .Nid v, buf => NSID.pack v buf
  | .SubNet v, buf => SubNet.pack v buf
  | .Local v, buf => LOCAL.pack v buf

/-- `EDNS0::unpack` dispatch by option code. -/
def EDNS0.unpack (code : Nat) (bs : List Nat) : Except DnsError EDNS0 :=
  if code = 3 then .ok (.Nid ⟨hexEncode bs⟩)
  else if code = 8 then (SubNet.unpack bs).map .SubNet
  else .ok (.Local ⟨code, bs⟩)

/-! ## Resource records (`msg/mod.rs`, `types/`) -/

def TYPE_A : Nat := 1
def TYPE_CNAME : Nat := 5
def TYPE_AAAA : Nat := 28
def TYPE_OPT : Nat := 41

/-- `msg::RecourseRecordHdr`. -/
structure RecourseRecordHdr where
  name : List Nat
  typ : Nat
  class_ : Nat
  ttl : Nat
  rd_length : Nat
  deriving DecidableEq

def RecourseRecordHdr.pack (h : RecourseRecordHdr) (buf : List Nat) :
    Except DnsError (List Nat) := do
  let buf ← pack_domain_name h.name buf
  .ok (buf ++ u16be h.typ ++ u16be h.class_ ++ u32be h.ttl ++ u16be h.rd_length)

def RecourseRecordHdr.unpack (buf : List Nat) (pos : Nat) :
    Except DnsError (RecourseRecordHdr × Nat) := do
  let (name, pos) ← unpack_domain_name buf pos
  let (typ, pos) ← readU16 buf pos
  let (cls, pos) ← readU16 buf pos
  let (ttl, pos) ← readU32 buf pos
  let (rd_length, pos) ← readU16 buf pos
  .ok (⟨name, typ, cls, ttl, rd_length⟩, pos)

/-- `types::A`. -/
structure A where
  hdr : RecourseRecordHdr
  a : Nat
  deriving DecidableEq

/-- `types::AAAA`. -/
structure AAAA where
  hdr : RecourseRecordHdr
  aaaa : Nat
  deriving DecidableEq

/-- `types::CNAME`. -/
structure CNAME where
  hdr : RecourseRecordHdr
  target : List Nat
  deriving DecidableEq

/-- `types::Opt` (the OPT pseudo-record). -/
structure Opt where
  hdr : RecourseRecordHdr
  option : List EDNS0
  deriving DecidableEq

/-- `types::RFC3597` (unknown record, hex-stored payload). -/
structure RFC3597 where
  hdr : RecourseRecordHdr
  data : String
  deriving DecidableEq

/-- `Opt::extended_r_code`.  In the Rust source the expression is
`((self.hdr.ttl & 0xFF000000 >> 24) << 4) as u16`; Rust's `>>` binds tighter
than `&`, so the mask evaluates to `0xFF` and the code reads the LOW byte of
the TTL, not bits 24-31. -/
def Opt.extended_r_code (o : Opt) : Nat := (o.hdr.ttl &&& 0xFF) <<< 4

/-- `Opt::op_extended_r_code`: write the high bits of the response code into
TTL bits 24-31 (`self.hdr.ttl & 0x00FFFFFF | ((v >> 4) as u32) << 24`). -/
def Opt.op_extended_r_code (o : Opt) (v : Nat) : Nat :=
  (o.hdr.ttl &&& 0x00FFFFFF) ||| ((((v % 65536) >>> 4) <<< 24) % 4294967296)

/-- `types::RecourseRecord`. -/
inductive RecourseRecord where
  | A (val : A)
  | AAAA (val : AAAA)
  | CNAME (val : CNAME)
  | Opt (val : Opt)
  | Unknown (val : RFC3597)
  deriving DecidableEq

def RecourseRecord.header : RecourseRecord → RecourseRecordHdr
  | .A v => v.hdr
  | .AAAA v => v.hdr
  | .CNAME v => v.hdr
  | .Opt v => v.hdr
  | .Unknown v => v.hdr

/-- `A::pack`: patch the rdata length, append the four octets. -/
def A.pack (v : A) (buf : List Nat) : Except DnsError (List Nat) :=
  .ok (set_rd buf (ipv4Octets v.a))

/-- `AAAA::pack`. -/
def AAAA.pack (v : AAAA) (buf : List Nat) : Except DnsError (List Nat) :=
  .ok (set_rd buf (ipv6Octets v.aaaa))

/-- `CNAME::pack`: encode the target name, then back-patch the rdata length
just before where it started. -/
def CNAME.pack (v : CNAME) (buf : List Nat) : Except DnsError (List Nat) := do
  let start := buf.length
  let buf ← pack_domain_name v.target buf
  let count := buf.length - start
  .ok (set_value_offset buf (start - 2) count)

/-- `RFC3597::pack`: hex-decode the stored payload. -/
def RFC3597.pack (v : RFC3597) (buf : List Nat) : Except DnsError (List Nat) := do
  let bytes ← hexDecode v.data
  .ok (buf ++ bytes)

/-- The option loop of `Opt::pack` (the `RR` impl): write code and a length
placeholder, write the option, back-patch the length. -/
def Opt.pack_options : List EDNS0 → List Nat → Except DnsError (List Nat)
  | [], buf => .ok buf
  | el :: rest, buf => do
    let buf := buf ++ u16be el.option ++ u16be 0
    let start := buf.length
    let buf ← EDNS0.pack el buf
    let count := buf.length - start
    Opt.pack_options rest (set_value_offset buf (start - 2) count)

def Opt.pack (v : Opt) (buf : List Nat) : Except DnsError (List Nat) :=
  Opt.pack_options v.option buf

def RecourseRecord.pack : RecourseRecord → List Nat → Except DnsError (List Nat)
  | .A v, buf => A.pack v buf
  | .AAAA v, buf => AAAA.pack v buf
  | .CNAME v, buf => CNAME.pack v buf
  | .Opt v, buf => Opt.pack v buf
  | .Unknown v, buf => RFC3597.pack v buf

/-- `A::unpack`: exactly four bytes. -/
def A.unpack (h : RecourseRecordHdr) (buf : List Nat) (pos : Nat) :
    Except DnsError (A × Nat) := do
  let (s, pos) ← readExact buf pos 4
  .ok (⟨h, beBytesToNat s⟩, pos)

/-- `AAAA::unpack`: a zero rdata length yields the unspecified address. -/
def AAAA.unpack (h : RecourseRecordHdr) (buf : List Nat) (pos : Nat) :
    Except DnsError (AAAA × Nat) :=
  if h.rd_length = 0 then .ok (⟨h, 0⟩, pos)
  else do
    let (s, pos) ← readExact buf pos 16
    .ok (⟨h, beBytesToNat s⟩, pos)

/-- `CNAME::unpack`: a zero rdata length yields an empty target. -/
def CNAME.unpack (h : RecourseRecordHdr) (buf : List Nat) (pos : Nat) :
    Except DnsError (CNAME × Nat) :=
  if h.rd_length = 0 then .ok (⟨h, []⟩, pos)
  else do
    let (name, pos) ← unpack_domain_name buf pos
    .ok (⟨h, name⟩, pos)

/-- `RFC3597::unpack`: read exactly `rd_length` bytes, store as hex. -/
def RFC3597.unpack (h : RecourseRecordHdr) (buf : List Nat) (pos : Nat) :
    Except DnsError (RFC3597 × Nat) := do
  let (data, pos) ← readExact buf pos h.rd_length
  .ok (⟨h, hexEncode data⟩, pos)

/-- The loop of `Opt::unpack`: the cursor `pos` advances only over the two
`read_u16` calls, while the separate index `off` tracks the option data; the
loop exits when `off` reaches the end of the WHOLE buffer (the declared
rdata length is never consulted).  `cur.get_ref()[off..off + opt_len]` panics
when out of bounds, modelled by `sliceOutOfBounds`. -/
def Opt.unpack_go (buf : List Nat) (fuel : Nat) (pos off : Nat) (acc : List EDNS0) :
    Except DnsError (List EDNS0 × Nat) :=
  match fuel with
  | 0 => .error .fuelOut
  | fuel + 1 => do
    let (code, pos) ← readU16 buf pos
    let (opt_len, pos) ← readU16 buf pos
    let off := off + 4
    if off + opt_len ≤ buf.length then do
      let data := (buf.drop off).take opt_len
      let e0 ← EDNS0.unpack code data
      let acc := acc ++ [e0]
      let off := off + opt_len
      if buf.length ≤ off then .ok (acc, pos)
      else Opt.unpack_go buf fuel pos off acc
    else .error .sliceOutOfBounds

def Opt.unpack (h : RecourseRecordHdr) (buf : List Nat) (pos : Nat) :
    Except DnsError (Opt × Nat) :=
  (Opt.unpack_go buf (buf.length + 1) pos pos []).map fun r => (⟨h, r.1⟩, r.2)

/-- `RecourseRecord::unpack` dispatch by type code. -/
def RecourseRecord.unpack (h : RecourseRecordHdr) (buf : List Nat) (pos : Nat) :
    Except DnsError (RecourseRecord × Nat) :=
  if h.typ = TYPE_A then (A.unpack h buf pos).map fun r => (.A r.1, r.2)
  else if h.typ = TYPE_AAAA then (AAAA.unpack h buf pos).map fun r => (.AAAA r.1, r.2)
  else if h.typ = TYPE_CNAME then (CNAME.unpack h buf pos).map fun r => (.CNAME r.1, r.2)
  else if h.typ = TYPE_OPT then (Opt.unpack h buf pos).map fun r => (.Opt r.1, r.2)
  else (RFC3597.unpack h buf pos).map fun r => (.Unknown r.1, r.2)

/-! ## Message orchestrator (`msg/mod.rs`) -/

/-- `msg::PktMsgHeader` (wire header, in field order). -/
structure PktMsgHeader where
  id : Nat
  bits : Nat
  question_count : Nat
  answer_count : Nat
  authority_count : Nat
  additional_count : Nat
  deriving DecidableEq

/-- `PktMsgHeader::pack`: six big-endian `u16` fields, 12 bytes. -/
def PktMsgHeader.pack (h : PktMsgHeader) (buf : List Nat) : List Nat :=
  buf ++ u16be h.id ++ u16be h.bits ++ u16be h.question_count ++ u16be h.answer_count
    ++ u16be h.authority_count ++ u16be h.additional_count

def PktMsgHeader.unpack (buf : List Nat) (pos : Nat) :
    Except DnsError (PktMsgHeader × Nat) := do
  let (id, pos) ← readU16 buf pos
  let (bits, pos) ← readU16 buf pos
  let (qc, pos) ← readU16 buf pos
  let (anc, pos) ← readU16 buf pos
  let (auc, pos) ← readU16 buf pos
  let (adc, pos) ← readU16 buf pos
  .ok (⟨id, bits, qc, anc, auc, adc⟩, pos)

/-- `msg::MsgHdr` (logical header). -/
structure MsgHdr where
  id : Nat
  response : Bool
  op_code : Nat
  authoritative : Bool
  truncated : Bool
  recursion_desired : Bool
  recursion_available : Bool
  zero : Bool
  authenticated_data : Bool
  checking_disabled : Bool
  response_code : Nat
  deriving DecidableEq

/-- `impl Into<PktMsgHeader> for MsgHdr`: opcode in bits 11-14, base response
code in bits 0-3, flags at fixed positions; counts zeroed. -/
def MsgHdr.into_pkt (m : MsgHdr) : PktMsgHeader :=
  let bits := ((m.op_code <<< 11) % 65536) ||| (m.response_code &&& 0xF)
  let bits := if m.response then bits ||| 32768 else bits
  let bits := if m.authoritative then bits ||| 1024 else bits
  let bits := if m.truncated then bits ||| 512 else bits
  let bits := if m.recursion_desired then bits ||| 256 else bits
  let bits := if m.recursion_available then bits ||| 128 else bits
  let bits := if m.zero then bits ||| 64 else bits
  let bits := if m.authenticated_data then bits ||| 32 else bits
  let bits := if m.checking_disabled then bits ||| 16 else bits
  ⟨m.id, bits, 0, 0, 0, 0⟩

/-- `impl From<PktMsgHeader> for MsgHdr`. -/
def MsgHdr.from_pkt (p : PktMsgHeader) : MsgHdr where
  id := p.id
  response := p.bits &&& 32768 != 0
  op_code := (p.bits >>> 11) &&& 0xF
  authoritative := p.bits &&& 1024 != 0
  truncated := p.bits &&& 512 != 0
  recursion_desired := p.bits &&& 256 != 0
  recursion_available := p.bits &&& 128 != 0
  zero := p.bits &&& 64 != 0
  authenticated_data := p.bits &&& 32 != 0
  checking_disabled := p.bits &&& 16 != 0
  response_code := p.bits &&& 0xF

/-- `msg::Question`. -/
structure Question where
  name : List Nat
  q_type : Nat
  q_class : Nat
  deriving DecidableEq

def Question.pack (q : Question) (buf : List Nat) : Except DnsError (List Nat) := do
  let buf ← pack_domain_name q.name buf
  .ok (buf ++ u16be q.q_type ++ u16be q.q_class)

def Question.unpack (buf : List Nat) (pos : Nat) : Except DnsError (Question × Nat) := do
  let (name, pos) ← unpack_domain_name buf pos
  let (q_type, pos) ← readU16 buf pos
  let (q_class, pos) ← readU16 buf pos
  .ok (⟨name, q_type, q_class⟩, pos)

/-- `msg::Msg`. -/
structure Msg where
  hdr : MsgHdr
  question : List Question
  answer : List RecourseRecord
  authority : List RecourseRecord
  additional : List RecourseRecord
  deriving DecidableEq

/-- `Msg::is_edns0`: the first OPT record of the additional section. -/
def Msg.is_edns0 (m : Msg) : Option Opt :=
  m.additional.findSome? fun r =>
    match r with
    | .Opt v => some v
    | _ => none

def pack_questions : List Question → List Nat → Except DnsError (List Nat)
  | [], buf => .ok buf
  | q :: rest, buf => do
    let buf ← Question.pack q buf
    pack_questions rest buf

/-- The answer/authority loops of `Msg::pack`: record header, then payload. -/
def pack_records : List RecourseRecord → List Nat → Except DnsError (List Nat)
  | [], buf => .ok buf
  | r :: rest, buf => do
    let buf ← RecourseRecordHdr.pack r.header buf
    let buf ← RecourseRecord.pack r buf
    pack_records rest buf

/-- The additional loop of `Msg::pack`: an OPT record gets a fresh header
whose TTL carries the extended response code. -/
def pack_additional (r_code : Nat) : List RecourseRecord → List Nat →
    Except DnsError (List Nat)
  | [], buf => .ok buf
  | r :: rest, buf => do
    let buf ←
      match r with
      | .Opt opt =>
        RecourseRecordHdr.pack { opt.hdr with ttl := opt.op_extended_r_code r_code } buf
      | _ => RecourseRecordHdr.pack r.header buf
    let buf ← RecourseRecord.pack r buf
    pack_additional r_code rest buf

/-- `Msg::pack`: response-code validation, header with counts from the list
lengths (the authority length goes into the `additional_count` field and the
additional length into the `authority_count` field, exactly as in the
source), then the four sections. -/
def Msg.pack (m : Msg) (buf : List Nat) : Except DnsError (List Nat) :=
  if 0xFFF < m.hdr.response_code then .error .badResponseCode
  else
    let r_code := m.hdr.response_code
    if m.is_edns0 = none ∧ 0xF < r_code then .error .badExtendedResponseCode
    else do
      let hdrP : PktMsgHeader :=
        { m.hdr.into_pkt with
          question_count := m.question.length % 65536
          answer_count := m.answer.length % 65536
          additional_count := m.authority.length % 65536
          authority_count := m.additional.length % 65536 }
      let buf := PktMsgHeader.pack hdrP buf
      let buf ← pack_questions m.question buf
      let buf ← pack_records m.answer buf
      let buf ← pack_records m.authority buf
      let buf ← pack_additional r_code m.additional buf
      .ok buf

def unpack_questions_n : Nat → List Nat → Nat → Except DnsError (List Question × Nat)
  | 0, _, pos => .ok ([], pos)
  | n + 1, buf, pos => do
    let (q, pos) ← Question.unpack buf pos
    let (rest, pos) ← unpack_questions_n n buf pos
    .ok (q :: rest, pos)

/-- `msg::unpack_slice`: decode `l` records; before each per-type decode the
declared rdata length is bounds-checked twice, with the two distinct error
messages of the source. -/
def unpack_slice : Nat → List Nat → Nat → Except DnsError (List RecourseRecord × Nat)
  | 0, _, pos => .ok ([], pos)
  | l + 1, buf, pos => do
    let (h, pos) ← RecourseRecordHdr.unpack buf pos
    if buf.length < h.rd_length + pos then .error .overflowHeader
    else if buf.length < pos + h.rd_length then .error .badRdlength
    else do
      let (r, pos) ← RecourseRecord.unpack h buf pos
      let (rest, pos) ← unpack_slice l buf pos
      .ok (r :: rest, pos)

/-- `Msg::unpack` and `Msg::__unpack`: header, sections, and the OPT
response-code reconciliation. -/
def Msg.unpack (msg : List Nat) : Except DnsError Msg := do
  let (pkt, pos) ← PktMsgHeader.unpack msg 0
  let hdr0 := MsgHdr.from_pkt pkt
  if msg.length = pos then .ok ⟨hdr0, [], [], [], []⟩
  else do
    let (question, pos) ← unpack_questions_n pkt.question_count msg pos
    let (answer, pos) ← unpack_slice pkt.answer_count msg pos
    let (authority, pos) ← unpack_slice pkt.authority_count msg pos
    let (additional, _) ← unpack_slice pkt.additional_count msg pos
    let m : Msg := ⟨hdr0, question, answer, authority, additional⟩
    match m.is_edns0 with
    | some opt =>
      .ok { m with hdr := { m.hdr with
              response_code := m.hdr.response_code ||| opt.extended_r_code } }
    | none => .ok m

/-! ## Concrete inputs for the evaluated claims -/

/-- An OPT record at the root name with UDP size 512, TTL 0, one opaque local
option of code 9 with empty data, and the matching rdata length 4. -/
def c1opt : Opt := ⟨⟨[46], 41, 512, 0, 4⟩, [.Local ⟨9, []⟩]⟩

/-- A message with response code `0x10` and the OPT record in its additional
section: the claim says it round-trips. -/
def c1msg : Msg :=
  ⟨⟨1, false, 0, false, false, false, false, false, false, false, 0x10⟩,
    [], [], [], [.Opt c1opt]⟩

/-- A record header declaring 5 bytes of OPT rdata. -/
def c3hdr : RecourseRecordHdr := ⟨[46], 41, 512, 0, 5⟩

/-- One well-formed option (code 3, length 1, one data byte): exactly the 5
declared rdata bytes. -/
def c3buf : List Nat := [0, 3, 0, 1, 171]

/-- A message with one question and one additional A record (authority
empty), making the count cross-assignment observable on the wire. -/
def c2msg : Msg :=
  ⟨⟨1, false, 0, false, false, false, false, false, false, false, 0⟩,
    [⟨[97, 46], 1, 1⟩], [], [], [.A ⟨⟨[97, 46], 1, 1, 60, 4⟩, 0x01020304⟩]⟩

/-- The wire bytes of `c2msg`: bytes 8-9 (the wire authority-count field)
hold 1, the ADDITIONAL list's length, and bytes 10-11 hold 0. -/
def c2packed : List Nat :=
  [0, 1, 0, 0, 0, 1, 0, 0, 0, 1, 0, 0, 1, 97, 0, 0, 1, 0, 1,
    1, 97, 0, 0, 1, 0, 1, 0, 0, 0, 60, 0, 4, 1, 2, 3, 4]

/-! ## Theorems -/

/-- Bounded-work lemma for the iterative domain-name decoder: any fuel above
the measure `(127 - ptr) * (length + 1) + (length - off)` is never exhausted.
Each literal label strictly advances the offset below the buffer length, and
each compression pointer (at most 126 of them) resets the offset at the cost
of one unit of the pointer budget. -/
theorem measure_step_lit (L ptr off c f : Nat) (h1 : off < L) (h2 : 1 ≤ c)
    (h3 : off + 1 + c ≤ L) (h : (127 - ptr) * (L + 1) + (L - off) < f + 1) :
    (127 - ptr) * (L + 1) + (L - (off + 1 + c)) < f := by
  omega

theorem measure_step_ptr (L ptr off tgt f : Nat) (hptr : ptr + 1 ≤ 126)
    (h : (127 - ptr) * (L + 1) + (L - off) < f + 1) :
    (127 - (ptr + 1)) * (L + 1) + (L - tgt) < f := by
  have hm : (127 - ptr) * (L + 1) = (127 - (ptr + 1)) * (L + 1) + (L + 1) := by
    have hq : 127 - ptr = (127 - (ptr + 1)) + 1 := by omega
    rw [hq]; ring
  have hs : L - tgt ≤ L := Nat.sub_le _ _
  omega

theorem unpack_go_ne_fuelOut (buf : List Nat) :
    ∀ fuel off s off1 budget ptr,
      (127 - ptr) * (buf.length + 1) + (buf.length - off) < fuel →
      unpack_domain_name_go buf fuel off s off1 budget ptr ≠ .error .fuelOut := by
  intro fuel
  induction fuel with
  | zero => intro off s off1 budget ptr h; omega
  | succ f ih =>
    intro off s off1 budget ptr h
    have hMC : MAX_COMPRESSION_POINTERS = 126 := by decide
    simp only [unpack_domain_name_go, hMC, List.getD_eq_getElem?_getD]
    split_ifs
    all_goals try decide
    all_goals try simp
    all_goals
      first
        | exact ih _ _ _ _ _ (measure_step_lit _ _ _ _ _ (by omega) (by omega) (by omega) h)
        | exact ih _ _ _ _ _ (measure_step_ptr _ _ _ _ _ (by omega) h)

/-- Fuel stability: once the decoder completes without exhausting its fuel,
any larger fuel produces the same result. -/
theorem unpack_go_fuel_stable (buf : List Nat) :
    ∀ f g off s off1 budget ptr,
      unpack_domain_name_go buf f off s off1 budget ptr ≠ .error .fuelOut →
      f ≤ g →
      unpack_domain_name_go buf g off s off1 budget ptr
        = unpack_domain_name_go buf f off s off1 budget ptr := by
  intro f
  induction f with
  | zero => intro g off s off1 budget ptr hne _; exact absurd rfl hne
  | succ f ih =>
    intro g off s off1 budget ptr hne hle
    cases g with
    | zero => omega
    | succ g =>
      simp only [unpack_domain_name_go] at hne ⊢
      split_ifs at hne ⊢
      all_goals first
        | rfl
        | exact ih _ _ _ _ _ _ hne (by omega)

theorem readU8_ok (buf : List Nat) (pos : Nat) (h : pos < buf.length) :
    readU8 buf pos = .ok (buf.getD pos 0, pos + 1) := by
  simp [readU8, h]

/-- C4 (amended): decoding a domain name always terminates: the iterative
decoder `unpack_domain_name` never exhausts its canonical fuel, and giving it
any extra fuel does not change its result.  The recursive decoder
`read_string_recursive` fails with the `TooMuchRecursion` error as soon as a
compression-pointer target is an already-recorded offset, or as soon as an
eighth offset is recorded.  A revisiting pointer chain in the iterative
decoder is guaranteed to fail, but possibly with the wire-octet budget error
rather than the too-many-pointers error (see the counterexample). -/
theorem claim_C4 : ∀ (buf : List Nat) (off extra : Nat)
    (labels : List (Nat × List Nat)) (pos : Nat) (recs : List Nat) (fuel bytes : Nat),
    (unpack_domain_name buf off ≠ .error .fuelOut)
    ∧ (unpack_domain_name_go buf (unpack_fuel buf + extra) off [] 0 255 0
        = unpack_domain_name buf off)
    ∧ (pos + 1 < buf.length →
        192 ≤ buf.getD pos 0 →
        (buf.getD pos 0 - 192) * 256 + buf.getD (pos + 1) 0 ∈ recs →
        read_string_recursive_go buf (fuel + 1) labels pos recs bytes
          = .error .tooMuchRecursion)
    ∧ (pos + 1 < buf.length →
        192 ≤ buf.getD pos 0 →
        (buf.getD pos 0 - 192) * 256 + buf.getD (pos + 1) 0 ∉ recs →
        7 ≤ recs.length →
        read_string_recursive_go buf (fuel + 1) labels pos recs bytes
          = .error .tooMuchRecursion) := by
  intro buf off extra labels pos recs fuel bytes
  have hterm : unpack_domain_name buf off ≠ .error .fuelOut := by
    apply unpack_go_ne_fuelOut
    have := Nat.sub_le buf.length off
    simp only [unpack_fuel]
    omega
  refine ⟨hterm, ?_, ?_, ?_⟩
  · exact unpack_go_fuel_stable buf (unpack_fuel buf) (unpack_fuel buf + extra)
      off [] 0 255 0 hterm (by omega)
  · intro h1 h2 h3
    have hp : pos < buf.length := by omega
    have hb0 : ¬(buf.getD pos 0 = 0) := by omega
    rw [read_string_recursive_go, readU8_ok buf pos hp]
    simp only [List.getD_eq_getElem?_getD] at h2 h3 hb0
    simp [Bind.bind, Except.bind, hb0, h2, h3, readU8_ok buf (pos + 1) h1]
  · intro h1 h2 h3 h4
    have hp : pos < buf.length := by omega
    have hb0 : ¬(buf.getD pos 0 = 0) := by omega
    have hlim : 8 ≤ recs.length + 1 := by omega
    rw [read_string_recursive_go, readU8_ok buf pos hp]
    simp only [List.getD_eq_getElem?_getD] at h2 h3 hb0
    simp [Bind.bind, Except.bind, hb0, h2, h3, hlim, RECURSION_LIMIT,
      readU8_ok buf (pos + 1) h1]

/-- Witness for C4: the recursion-defense branches fire on concrete inputs:
a pointer whose target 0 is already recorded, and a pointer pushing an eighth
recorded offset. -/
theorem claim_C4_witness :
    read_string_recursive_go [192, 0] 1 [] 0 [0] 0 = .error .tooMuchRecursion
    ∧ read_string_recursive_go [192, 5] 1 [] 0 [0, 1, 2, 3, 4, 6, 7] 0
        = .error .tooMuchRecursion := by
  constructor
  · exact (claim_C4 [192, 0] 0 0 [] 0 [0] 0 0).2.2.1 (by decide) (by decide) (by decide)
  · exact (claim_C4 [192, 5] 0 0 [] 0 [0, 1, 2, 3, 4, 6, 7] 0 0).2.2.2 (by decide)
      (by decide) (by decide) (by decide)

set_option maxRecDepth 20000 in
/-- Counterexample for C4 as stated: on the buffer `c4buf` the compression
pointer chain revisits offset 0 (63 times), yet the decode fails with the
wire-octet budget error, not with a recursion-limit or too-many-pointers
error. -/
theorem claim_C4_counterexample :
    unpack_domain_name c4buf 0 = .error .budgetExceeded
    ∧ 2 ≤ (pointer_targets c4buf 0).count 0
    ∧ DnsError.budgetExceeded ≠ DnsError.tooManyPointers
    ∧ DnsError.budgetExceeded ≠ DnsError.tooMuchRecursion := by
  refine ⟨by decide, by decide, by decide, by decide⟩

end Dns

namespace Dns

/-- Budget invariant of the decoder: a successful decode run charges at most
the initial budget in literal-label wire octets. -/
theorem label_octets_of_ok (buf : List Nat) :
    ∀ fuel off s off1 (budget : Int) ptr r,
      0 ≤ budget →
      unpack_domain_name_go buf fuel off s off1 budget ptr = .ok r →
      ∃ n, label_octets_go buf fuel off ptr = some n ∧ (n : Int) ≤ budget := by
  intro fuel
  induction fuel with
  | zero =>
    intro off s off1 budget ptr r _ h
    exact absurd h (by simp [unpack_domain_name_go])
  | succ f ih =>
    intro off s off1 budget ptr r hb h
    simp only [unpack_domain_name_go] at h
    simp only [label_octets_go]
    split_ifs at h ⊢
    all_goals
      first
        | exact ⟨0, rfl, by exact_mod_cast hb⟩
        | (obtain ⟨n, hsome, hle⟩ := ih _ _ _ _ _ _ (by omega) h
           exact ⟨_, by rw [hsome]; rfl, by push_cast at hle ⊢; omega⟩)
        | (obtain ⟨n, hsome, hle⟩ := ih _ _ _ _ _ _ hb h
           exact ⟨n, hsome, hle⟩)

/-- C5: a decode that succeeds has charged at most 255 wire octets of literal
labels against the budget, and conversely a traversal whose literal labels
would exceed 255 octets can never decode successfully. -/
theorem claim_C5 : ∀ (buf : List Nat) (off : Nat),
    (∀ r, unpack_domain_name buf off = .ok r →
      ∃ n, label_octets buf off = some n ∧ n ≤ 255)
    ∧ (∀ n, label_octets buf off = some n → 255 < n →
      ∀ r, unpack_domain_name buf off ≠ .ok r) := by
  intro buf off
  have hmain : ∀ r, unpack_domain_name buf off = .ok r →
      ∃ n, label_octets buf off = some n ∧ n ≤ 255 := by
    intro r h
    obtain ⟨n, hsome, hle⟩ :=
      label_octets_of_ok buf (unpack_fuel buf) off [] 0 255 0 r (by norm_num) h
    exact ⟨n, hsome, by exact_mod_cast hle⟩
  refine ⟨hmain, ?_⟩
  intro n hsome hgt r hok
  obtain ⟨m, hsome2, hle⟩ := hmain r hok
  rw [hsome] at hsome2
  have : n = m := by injection hsome2
  omega

set_option maxRecDepth 20000 in
/-- Witness for C5: a one-label name charges 2 octets, and the 262-octet
two-label buffer `c5buf` cannot decode successfully. -/
theorem claim_C5_witness :
    (∃ n, label_octets [1, 97, 0] 0 = some n ∧ n ≤ 255)
    ∧ unpack_domain_name c5buf 0 ≠ .ok ([46], 0) := by
  constructor
  · exact (claim_C5 [1, 97, 0] 0).1 ([97, 46], 3) (by decide)
  · exact (claim_C5 c5buf 0).2 256 (by decide) (by decide) ([46], 0)

theorem pack_labels_ok_iff : ∀ (labels : List (List Nat)) (buf : List Nat),
    (∃ out, pack_labels labels buf = .ok out)
      ↔ ∀ seg ∈ labels, seg ≠ [] → seg.length ≤ 255 := by
  intro labels
  induction labels with
  | nil => intro buf; simp [pack_labels]
  | cons seg rest ih =>
    intro buf
    rw [pack_labels]
    split_ifs with h1 h2
    · simp only [List.forall_mem_cons, h1]
      rw [ih buf]
      simp
    · simp only [List.forall_mem_cons]
      rw [ih (buf ++ [seg.length] ++ seg)]
      simp [h2]
    · simp only [List.forall_mem_cons]
      constructor
      · intro hc; exact absurd hc (by simp)
      · intro hc; exact absurd (hc.1 h1) h2

theorem pack_labels_error : ∀ (labels : List (List Nat)) (buf : List Nat) (e : DnsError),
    pack_labels labels buf = .error e →
    ∃ seg ∈ labels, 255 < seg.length ∧ e = .labelError seg := by
  intro labels
  induction labels with
  | nil => intro buf e h; exact absurd h (by simp [pack_labels])
  | cons seg rest ih =>
    intro buf e h
    rw [pack_labels] at h
    split_ifs at h with h1 h2
    · obtain ⟨s, hm, hl, he⟩ := ih _ _ h
      exact ⟨s, List.mem_cons_of_mem _ hm, hl, he⟩
    · obtain ⟨s, hm, hl, he⟩ := ih _ _ h
      exact ⟨s, List.mem_cons_of_mem _ hm, hl, he⟩
    · refine ⟨seg, List.mem_cons_self _ _, by omega, ?_⟩
      have := Except.error.inj h
      exact this.symm

/-- C7 (amended): `pack_domain_name` succeeds exactly when every nonempty
dot-separated segment is at most 255 bytes long, and on failure its error
names an offending over-long segment.  The total wire length of the name is
not checked on the encode path (see the counterexample). -/
theorem claim_C7 : ∀ (input buf : List Nat),
    ((∃ out, pack_domain_name input buf = .ok out)
      ↔ ∀ seg ∈ input.splitOn 46, seg ≠ [] → seg.length ≤ 255)
    ∧ (∀ e, pack_domain_name input buf = .error e →
      ∃ seg ∈ input.splitOn 46, 255 < seg.length ∧ e = .labelError seg) := by
  intro input buf
  exact ⟨pack_labels_ok_iff (input.splitOn 46) buf,
    fun e h => pack_labels_error (input.splitOn 46) buf e h⟩

set_option maxRecDepth 20000 in
/-- Witness for C7: encoding a single 256-byte label fails with the
label-too-long error naming that label. -/
theorem claim_C7_witness :
    ∃ seg ∈ (List.replicate 256 97 : List Nat).splitOn 46,
      255 < seg.length ∧ DnsError.labelError (List.replicate 256 97) = DnsError.labelError seg := by
  exact (claim_C7 (List.replicate 256 97) []).2 (.labelError (List.replicate 256 97)) (by decide)

set_option maxRecDepth 20000 in
/-- Counterexample for C7 as stated: the name `c7name` (two 130-byte labels)
has a wire encoding of 263 octets, above the 255-octet limit, yet
`pack_domain_name` encodes it successfully. -/
theorem claim_C7_counterexample :
    (pack_domain_name c7name []).map List.length = .ok 263 ∧ 255 < 263 := by
  exact ⟨by decide, by decide⟩

end Dns

namespace Dns

set_option maxRecDepth 20000 in
/-- C1 fails on the code: packing the message `c1msg` (response code `0x10`,
OPT present) and decoding the result yields a header whose response code is
0, not `0x10`, so `decode(encode(header)) == header` is violated.  Two slips
compound: `Opt::extended_r_code` reads the low TTL byte instead of bits
24-31 (Rust precedence: `ttl & 0xFF000000 >> 24` is `ttl & 0xFF`), and the
count cross-assignment of `Msg::pack` makes the decoder file the OPT record
under `authority`, so the reconciliation finds no OPT at all. -/
theorem claim_C1 :
    c1msg.hdr.response_code = 0x10
    ∧ ((Msg.pack c1msg []).bind Msg.unpack).map (fun m2 => m2.hdr.response_code)
        = .ok 0
    ∧ ((Msg.pack c1msg []).bind Msg.unpack).map (fun m2 => m2.hdr == c1msg.hdr)
        = .ok false
    ∧ ((Msg.pack c1msg []).bind Msg.unpack).map
        (fun m2 => (m2.additional.length, m2.authority.length)) = .ok (0, 1) := by
  exact ⟨by decide, by decide, by decide, by decide⟩

set_option maxRecDepth 20000 in
/-- C3 fails on the code: decoding the well-formed 5-byte OPT rdata `c3buf`
(declared rdata length 5) leaves the cursor at position 4, not at the end of
the declared region (5): the cursor advances only over the option code and
length words.  And with one extra byte after the declared region, the loop
keeps parsing past the region (it stops only at the end of the whole buffer)
and fails, instead of stopping after the declared 5 bytes. -/
theorem claim_C3 :
    c3hdr.rd_length = 5
    ∧ (Opt.unpack c3hdr c3buf 0).map (fun r => r.2) = .ok 4
    ∧ (4 : Nat) ≠ 0 + c3hdr.rd_length
    ∧ Opt.unpack c3hdr (c3buf ++ [99]) 0 = .error .bufTooSmall := by
  exact ⟨by decide, by decide, by decide, by decide⟩

/-- C10: the 6-byte Client-Subnet option data `[0, 1, 24, 0, 1, 2]` (family
1, netmask 24, two address bytes) passes the minimum-length-4 check but hits
the out-of-bounds slice read of `BigEndian::read_u32(&bs[4..])` — a Rust
panic — instead of returning an error. -/
theorem claim_C10 :
    4 ≤ ([0, 1, 24, 0, 1, 2] : List Nat).length
    ∧ ([0, 1, 24, 0, 1, 2] : List Nat).length < 8
    ∧ SubNet.unpack [0, 1, 24, 0, 1, 2] = .error .sliceOutOfBounds := by
  exact ⟨by decide, by decide, by decide⟩

/-- C8: Client-Subnet encode truncates the address to the netmask boundary
(`1.2.3.4/24` is written as `1.2.3.0`), and rejects netmasks above 32 for
family 1, above 128 for family 2, and any non-zero netmask for family 0. -/
theorem claim_C8 : ∀ (sn : SubNet) (buf : List Nat),
    SubNet.pack ⟨1, 24, 0, .V4 0x01020304⟩ [] = .ok [0, 1, 24, 0, 1, 2, 3, 0]
    ∧ (sn.family = 1 → 32 < sn.source_netmask →
        SubNet.pack sn buf = .error .badNetmask)
    ∧ (sn.family = 2 → 128 < sn.source_netmask →
        SubNet.pack sn buf = .error .badNetmask)
    ∧ (sn.family = 0 → sn.source_netmask ≠ 0 →
        SubNet.pack sn buf = .error .badAddressFamily) := by
  intro sn buf
  refine ⟨by decide, ?_, ?_, ?_⟩
  · intro h1 h2
    simp [SubNet.pack, h1, h2]
  · intro h1 h2
    simp [SubNet.pack, h1, h2]
  · intro h1 h2
    simp [SubNet.pack, h1, h2]

/-- Witness for C8: a family-1 subnet with netmask 33 is rejected. -/
theorem claim_C8_witness :
    SubNet.pack ⟨1, 33, 0, .V4 0⟩ [] = .error .badNetmask := by
  exact (claim_C8 ⟨1, 33, 0, .V4 0⟩ []).2.1 rfl (by decide)

end Dns

namespace Dns

/-- The possible errors of a computation. -/
def errors_in {α : Type} (r : Except DnsError α) (P : DnsError → Prop) : Prop :=
  ∀ e, r = .error e → P e

theorem errors_in_ok {α : Type} (a : α) (P : DnsError → Prop) :
    errors_in (.ok a) P := by
  intro e h
  exact absurd h (by simp)

theorem errors_in_error {α : Type} (e0 : DnsError) (P : DnsError → Prop) (hp : P e0) :
    errors_in (.error e0 : Except DnsError α) P := by
  intro e h
  have : e0 = e := Except.error.inj h
  exact this ▸ hp

theorem errors_in_bind {α β : Type} {ma : Except DnsError α}
    {f : α → Except DnsError β} {P : DnsError → Prop}
    (h1 : errors_in ma P) (h2 : ∀ a, errors_in (f a) P) :
    errors_in (ma.bind f) P := by
  intro e h
  cases ma with
  | error e0 =>
    have hb : (Except.error e0 : Except DnsError β) = .error e := by
      simpa [Except.bind] using h
    have : e0 = e := Except.error.inj hb
    exact this ▸ h1 e0 rfl
  | ok a => exact h2 a e (by simpa [Except.bind] using h)

theorem errors_in_map {α β : Type} {ma : Except DnsError α} {f : α → β}
    {P : DnsError → Prop} (h1 : errors_in ma P) :
    errors_in (ma.map f) P := by
  intro e h
  cases ma with
  | error e0 =>
    have hb : (Except.error e0 : Except DnsError β) = .error e := by
      simpa [Except.map] using h
    have : e0 = e := Except.error.inj hb
    exact this ▸ h1 e0 rfl
  | ok a => exact absurd h (by simp [Except.map])

theorem errors_in_ite {α : Type} {c : Prop} [Decidable c]
    {t f : Except DnsError α} {P : DnsError → Prop}
    (h1 : errors_in t P) (h2 : errors_in f P) :
    errors_in (if c then t else f) P := by
  intro e h
  by_cases hc : c
  · exact h1 e (by simpa [hc] using h)
  · exact h2 e (by simpa [hc] using h)

/-- Errors that the decode paths of the record dispatch can produce. -/
def decode_err (e : DnsError) : Prop :=
  e = .bufTooSmall ∨ e = .budgetExceeded ∨ e = .tooManyPointers ∨ e = .badRdata
    ∨ e = .fuelOut ∨ e = .sliceOutOfBounds ∨ e = .badAddressFamily ∨ e = .badNetmask

end Dns

namespace Dns

theorem readU8_errors (buf : List Nat) (pos : Nat) :
    errors_in (readU8 buf pos) decode_err := by
  unfold readU8
  exact errors_in_ite (errors_in_ok _ _) (errors_in_error _ _ (by simp [decode_err]))

theorem readU16_errors (buf : List Nat) (pos : Nat) :
    errors_in (readU16 buf pos) decode_err := by
  unfold readU16
  refine errors_in_bind (readU8_errors _ _) ?_
  rintro ⟨a, p⟩
  refine errors_in_bind (readU8_errors _ _) ?_
  rintro ⟨b, p2⟩
  exact errors_in_ok _ _

theorem readU32_errors (buf : List Nat) (pos : Nat) :
    errors_in (readU32 buf pos) decode_err := by
  unfold readU32
  refine errors_in_bind (readU16_errors _ _) ?_
  rintro ⟨a, p⟩
  refine errors_in_bind (readU16_errors _ _) ?_
  rintro ⟨b, p2⟩
  exact errors_in_ok _ _

theorem readExact_errors (buf : List Nat) (pos n : Nat) :
    errors_in (readExact buf pos n) decode_err := by
  unfold readExact
  exact errors_in_ite (errors_in_ok _ _) (errors_in_error _ _ (by simp [decode_err]))

theorem unpack_domain_name_go_errors (buf : List Nat) :
    ∀ fuel off s off1 budget ptr,
      errors_in (unpack_domain_name_go buf fuel off s off1 budget ptr) decode_err := by
  intro fuel
  induction fuel with
  | zero =>
    intro off s off1 budget ptr
    exact errors_in_error _ _ (by simp [decode_err])
  | succ f ih =>
    intro off s off1 budget ptr
    rw [unpack_domain_name_go]
    refine errors_in_ite (errors_in_error _ _ (by simp [decode_err])) ?_
    refine errors_in_ite (errors_in_ite ?_ (errors_in_ite
      (errors_in_error _ _ (by simp [decode_err]))
      (errors_in_ite (errors_in_error _ _ (by simp [decode_err])) (ih _ _ _ _ _))))
      (errors_in_ite
        (errors_in_ite (errors_in_error _ _ (by simp [decode_err]))
          (errors_in_ite (errors_in_error _ _ (by simp [decode_err])) (ih _ _ _ _ _)))
        (errors_in_error _ _ (by simp [decode_err])))
    exact errors_in_ite (errors_in_ok _ _) (errors_in_ok _ _)

theorem unpack_domain_name_errors (buf : List Nat) (off : Nat) :
    errors_in (unpack_domain_name buf off) decode_err :=
  unpack_domain_name_go_errors buf _ off [] 0 255 0

theorem SubNet_unpack_errors (bs : List Nat) :
    errors_in (SubNet.unpack bs) decode_err := by
  unfold SubNet.unpack
  refine errors_in_ite (errors_in_error _ _ (by simp [decode_err])) ?_
  refine errors_in_ite (errors_in_ite (errors_in_error _ _ (by simp [decode_err]))
    (errors_in_ok _ _)) ?_
  refine errors_in_ite (errors_in_ite (errors_in_error _ _ (by simp [decode_err]))
    (errors_in_ite (errors_in_error _ _ (by simp [decode_err])) (errors_in_ok _ _))) ?_
  refine errors_in_ite (errors_in_ite (errors_in_error _ _ (by simp [decode_err]))
    (errors_in_ite (errors_in_error _ _ (by simp [decode_err])) (errors_in_ok _ _)))
    (errors_in_error _ _ (by simp [decode_err]))

theorem EDNS0_unpack_errors (code : Nat) (bs : List Nat) :
    errors_in (EDNS0.unpack code bs) decode_err := by
  unfold EDNS0.unpack
  refine errors_in_ite (errors_in_ok _ _) ?_
  exact errors_in_ite (errors_in_map (SubNet_unpack_errors bs)) (errors_in_ok _ _)

end Dns

namespace Dns

theorem RecourseRecordHdr_unpack_errors (buf : List Nat) (pos : Nat) :
    errors_in (RecourseRecordHdr.unpack buf pos) decode_err := by
  unfold RecourseRecordHdr.unpack
  refine errors_in_bind (unpack_domain_name_errors _ _) ?_
  rintro ⟨name, p⟩
  refine errors_in_bind (readU16_errors _ _) ?_
  rintro ⟨typ, p⟩
  refine errors_in_bind (readU16_errors _ _) ?_
  rintro ⟨cls, p⟩
  refine errors_in_bind (readU32_errors _ _) ?_
  rintro ⟨ttl, p⟩
  refine errors_in_bind (readU16_errors _ _) ?_
  rintro ⟨rdl, p⟩
  exact errors_in_ok _ _

theorem A_unpack_errors (h : RecourseRecordHdr) (buf : List Nat) (pos : Nat) :
    errors_in (A.unpack h buf pos) decode_err := by
  unfold A.unpack
  refine errors_in_bind (readExact_errors _ _ _) ?_
  rintro ⟨s, p⟩
  exact errors_in_ok _ _

theorem AAAA_unpack_errors (h : RecourseRecordHdr) (buf : List Nat) (pos : Nat) :
    errors_in (AAAA.unpack h buf pos) decode_err := by
  unfold AAAA.unpack
  refine errors_in_ite (errors_in_ok _ _) ?_
  refine errors_in_bind (readExact_errors _ _ _) ?_
  rintro ⟨s, p⟩
  exact errors_in_ok _ _

theorem CNAME_unpack_errors (h : RecourseRecordHdr) (buf : List Nat) (pos : Nat) :
    errors_in (CNAME.unpack h buf pos) decode_err := by
  unfold CNAME.unpack
  refine errors_in_ite (errors_in_ok _ _) ?_
  refine errors_in_bind (unpack_domain_name_errors _ _) ?_
  rintro ⟨name, p⟩
  exact errors_in_ok _ _

theorem RFC3597_unpack_errors (h : RecourseRecordHdr) (buf : List Nat) (pos : Nat) :
    errors_in (RFC3597.unpack h buf pos) decode_err := by
  unfold RFC3597.unpack
  refine errors_in_bind (readExact_errors _ _ _) ?_
  rintro ⟨data, p⟩
  exact errors_in_ok _ _

theorem Opt_unpack_go_errors (buf : List Nat) :
    ∀ fuel pos off acc, errors_in (Opt.unpack_go buf fuel pos off acc) decode_err := by
  intro fuel
  induction fuel with
  | zero =>
    intro pos off acc
    exact errors_in_error _ _ (by simp [decode_err])
  | succ f ih =>
    intro pos off acc
    rw [Opt.unpack_go]
    refine errors_in_bind (readU16_errors _ _) ?_
    rintro ⟨code, p⟩
    refine errors_in_bind (readU16_errors _ _) ?_
    rintro ⟨opt_len, p2⟩
    refine errors_in_ite ?_ (errors_in_error _ _ (by simp [decode_err]))
    refine errors_in_bind (EDNS0_unpack_errors _ _) ?_
    intro e0
    exact errors_in_ite (errors_in_ok _ _) (ih _ _ _)

theorem Opt_unpack_errors (h : RecourseRecordHdr) (buf : List Nat) (pos : Nat) :
    errors_in (Opt.unpack h buf pos) decode_err := by
  unfold Opt.unpack
  exact errors_in_map (Opt_unpack_go_errors buf _ pos pos [])

theorem RecourseRecord_unpack_errors (h : RecourseRecordHdr) (buf : List Nat) (pos : Nat) :
    errors_in (RecourseRecord.unpack h buf pos) decode_err := by
  unfold RecourseRecord.unpack
  refine errors_in_ite (errors_in_map (A_unpack_errors _ _ _)) ?_
  refine errors_in_ite (errors_in_map (AAAA_unpack_errors _ _ _)) ?_
  refine errors_in_ite (errors_in_map (CNAME_unpack_errors _ _ _)) ?_
  exact errors_in_ite (errors_in_map (Opt_unpack_errors _ _ _))
    (errors_in_map (RFC3597_unpack_errors _ _ _))

/-- Conditional variant of `errors_in_ite`: each branch may use the
truth value of the condition. -/
theorem errors_in_ite_cond {α : Type} {c : Prop} [Decidable c]
    {t f : Except DnsError α} {P : DnsError → Prop}
    (h1 : c → errors_in t P) (h2 : ¬c → errors_in f P) :
    errors_in (if c then t else f) P := by
  intro e h
  by_cases hc : c
  · exact h1 hc e (by simpa [hc] using h)
  · exact h2 hc e (by simpa [hc] using h)

theorem errors_in_mono {α : Type} {r : Except DnsError α} {P Q : DnsError → Prop}
    (h : errors_in r P) (himp : ∀ e, P e → Q e) : errors_in r Q :=
  fun e he => himp e (h e he)

theorem decode_err_ne_badRdlength {e : DnsError} (h : decode_err e) :
    e ≠ .badRdlength := by
  rcases h with h | h | h | h | h | h | h | h <;> simp [h]

/-- No run of `unpack_slice` can produce the "bad rdlength" error: the two
bounds checks test the same inequality, so the first ("overflow header")
always fires first, and no per-type decoder produces that error either. -/
theorem unpack_slice_errors :
    ∀ (l : Nat) (buf : List Nat) (pos : Nat),
      errors_in (unpack_slice l buf pos) (fun e => e ≠ .badRdlength) := by
  intro l
  induction l with
  | zero => intro buf pos; rw [unpack_slice]; exact errors_in_ok _ _
  | succ l ih =>
    intro buf pos
    rw [unpack_slice]
    refine errors_in_bind (errors_in_mono (RecourseRecordHdr_unpack_errors buf pos)
      (fun e he => decode_err_ne_badRdlength he)) ?_
    rintro ⟨h2, p⟩
    refine errors_in_ite_cond (fun _ => errors_in_error _ _ (by simp)) ?_
    intro hc1
    refine errors_in_ite_cond (fun hc2 => absurd hc2 (by omega)) ?_
    intro _
    refine errors_in_bind (errors_in_mono (RecourseRecord_unpack_errors h2 buf p)
      (fun e he => decode_err_ne_badRdlength he)) ?_
    rintro ⟨r, p2⟩
    refine errors_in_bind (ih buf p2) ?_
    rintro ⟨rest, p3⟩
    exact errors_in_ok _ _

end Dns

namespace Dns

/-- Counterexample for C9 as stated: no input at all makes `unpack_slice`
fail with the "bad rdlength" error, refuting the claimed existence of inputs
distinguishing the two checks. -/
theorem claim_C9_counterexample :
    ¬ ∃ (l : Nat) (buf : List Nat) (pos : Nat),
        unpack_slice l buf pos = .error .badRdlength := by
  rintro ⟨l, buf, pos, h⟩
  exact unpack_slice_errors l buf pos _ h rfl

/-- C9 (amended): `unpack_slice` does check `position + rdata_length` against
the buffer length before each per-type decode, and a record whose declared
rdata length overruns the buffer fails with the "overflow header" error; but
the second check tests the same inequality as the first, so the
"bad rdlength" failure is unreachable on every input. -/
theorem claim_C9 : ∀ (l : Nat) (buf : List Nat) (pos : Nat),
    (∀ e, unpack_slice l buf pos = .error e → e ≠ .badRdlength)
    ∧ (∀ (h2 : RecourseRecordHdr) (p : Nat),
        RecourseRecordHdr.unpack buf pos = .ok (h2, p) →
        buf.length < h2.rd_length + p →
        unpack_slice (l + 1) buf pos = .error .overflowHeader) := by
  intro l buf pos
  constructor
  · exact fun e h => unpack_slice_errors l buf pos e h
  · intro h2 p hunp hlt
    rw [unpack_slice]
    rw [hunp]
    simp only [Bind.bind, Except.bind]
    simp [hlt]

/-- Witness for C9: a minimal buffer holding one record header that declares
5 rdata bytes past the end of the buffer fails with "overflow header". -/
theorem claim_C9_witness :
    unpack_slice 1 [0, 0, 1, 0, 1, 0, 0, 0, 0, 0, 5] 0 = .error .overflowHeader := by
  exact (claim_C9 0 [0, 0, 1, 0, 1, 0, 0, 0, 0, 0, 5] 0).2 ⟨[46], 1, 1, 0, 5⟩ 11
    (by decide) (by decide)

/-- Errors that the encode paths of `Msg::pack` below the response-code
checks can produce. -/
def encode_err (e : DnsError) : Prop :=
  (∃ s, e = .labelError s) ∨ e = .hexError ∨ e = .badAddressFamily ∨ e = .badNetmask
    ∨ e = .badAddress ∨ e = .invalidNetwork

theorem pack_labels_errors (labels : List (List Nat)) (buf : List Nat) :
    errors_in (pack_labels labels buf) encode_err := by
  intro e h
  obtain ⟨seg, _, _, heq⟩ := pack_labels_error labels buf e h
  exact Or.inl ⟨seg, heq⟩

theorem pack_domain_name_errors (input buf : List Nat) :
    errors_in (pack_domain_name input buf) encode_err :=
  pack_labels_errors _ _

theorem hexDecodePairs_errors : ∀ (cs : List Char),
    errors_in (hexDecodePairs cs) encode_err := by
  intro cs
  induction cs using hexDecodePairs.induct with
  | case1 => rw [hexDecodePairs]; exact errors_in_ok _ _
  | case2 => rw [hexDecodePairs]; exact errors_in_error _ _ (by simp [encode_err])
  | case3 a b rest hi lo hhb hha ih =>
    rw [hexDecodePairs]
    rw [hha, hhb]
    refine errors_in_bind ih ?_
    intro tail
    exact errors_in_ok _ _
  | case4 a b rest hbad =>
    rw [hexDecodePairs]
    intro e h
    revert h
    split
    · rename_i hi lo heqa heqb
      exact (hbad hi lo heqa heqb).elim
    · intro h
      have : DnsError.hexError = e := Except.error.inj h
      exact this ▸ (Or.inr (Or.inl rfl))

theorem hexDecode_errors (s : String) : errors_in (hexDecode s) encode_err :=
  hexDecodePairs_errors s.data

end Dns

namespace Dns

theorem NSID_pack_errors (v : NSID) (buf : List Nat) :
    errors_in (NSID.pack v buf) encode_err := by
  unfold NSID.pack
  refine errors_in_bind (hexDecode_errors _) ?_
  intro bytes
  exact errors_in_ok _ _

theorem LOCAL_pack_errors (v : LOCAL) (buf : List Nat) :
    errors_in (LOCAL.pack v buf) encode_err :=
  errors_in_ok _ _

theorem ipv4_network_errors (addr pfx : Nat) :
    errors_in (ipv4_network addr pfx) encode_err := by
  unfold ipv4_network
  exact errors_in_ite (errors_in_error _ _ (by simp [encode_err])) (errors_in_ok _ _)

theorem ipv6_network_errors (addr pfx : Nat) :
    errors_in (ipv6_network addr pfx) encode_err := by
  unfold ipv6_network
  exact errors_in_ite (errors_in_error _ _ (by simp [encode_err])) (errors_in_ok _ _)

theorem SubNet_pack_errors (sn : SubNet) (buf : List Nat) :
    errors_in (SubNet.pack sn buf) encode_err := by
  obtain ⟨f, nm, sc, addr⟩ := sn
  cases addr with
  | V4 v =>
    unfold SubNet.pack
    dsimp only
    refine errors_in_ite (errors_in_ite (errors_in_error _ _ (by simp [encode_err]))
      (errors_in_ok _ _)) ?_
    refine errors_in_ite (errors_in_ite (errors_in_error _ _ (by simp [encode_err])) ?_) ?_
    · refine errors_in_bind (errors_in_ok _ _) ?_
      intro y
      refine errors_in_bind (ipv4_network_errors _ _) ?_
      intro network
      exact errors_in_ok _ _
    · refine errors_in_ite (errors_in_ite (errors_in_error _ _ (by simp [encode_err])) ?_)
        (errors_in_error _ _ (by simp [encode_err]))
      refine errors_in_bind (ipv6_network_errors _ _) ?_
      intro network
      exact errors_in_ok _ _
  | V6 v =>
    unfold SubNet.pack
    dsimp only
    cases hv : to_ipv4_mapped v with
    | some v4 =>
      refine errors_in_ite (errors_in_ite (errors_in_error _ _ (by simp [encode_err]))
        (errors_in_ok _ _)) ?_
      refine errors_in_ite (errors_in_ite (errors_in_error _ _ (by simp [encode_err])) ?_) ?_
      · refine errors_in_bind (errors_in_ok _ _) ?_
        intro y
        refine errors_in_bind (ipv4_network_errors _ _) ?_
        intro network
        exact errors_in_ok _ _
      · refine errors_in_ite (errors_in_ite (errors_in_error _ _ (by simp [encode_err])) ?_)
          (errors_in_error _ _ (by simp [encode_err]))
        refine errors_in_bind (ipv6_network_errors _ _) ?_
        intro network
        exact errors_in_ok _ _
    | none =>
      refine errors_in_ite (errors_in_ite (errors_in_error _ _ (by simp [encode_err]))
        (errors_in_ok _ _)) ?_
      refine errors_in_ite (errors_in_ite (errors_in_error _ _ (by simp [encode_err])) ?_) ?_
      · refine errors_in_bind (errors_in_error _ _ (by simp [encode_err])) ?_
        intro y
        refine errors_in_bind (ipv4_network_errors _ _) ?_
        intro network
        exact errors_in_ok _ _
      · refine errors_in_ite (errors_in_ite (errors_in_error _ _ (by simp [encode_err])) ?_)
          (errors_in_error _ _ (by simp [encode_err]))
        refine errors_in_bind (ipv6_network_errors _ _) ?_
        intro network
        exact errors_in_ok _ _

theorem EDNS0_pack_errors (el : EDNS0) (buf : List Nat) :
    errors_in (EDNS0.pack el buf) encode_err := by
  cases el with
  | Nid v => exact NSID_pack_errors v buf
  | SubNet v => exact SubNet_pack_errors v buf
  | Local v => exact LOCAL_pack_errors v buf

theorem Opt_pack_options_errors : ∀ (options : List EDNS0) (buf : List Nat),
    errors_in (Opt.pack_options options buf) encode_err := by
  intro options
  induction options with
  | nil => intro buf; rw [Opt.pack_options]; exact errors_in_ok _ _
  | cons el rest ih =>
    intro buf
    rw [Opt.pack_options]
    refine errors_in_bind (EDNS0_pack_errors _ _) ?_
    intro buf2
    exact ih _

theorem RFC3597_pack_errors (v : RFC3597) (buf : List Nat) :
    errors_in (RFC3597.pack v buf) encode_err := by
  unfold RFC3597.pack
  refine errors_in_bind (hexDecode_errors _) ?_
  intro bytes
  exact errors_in_ok _ _

theorem CNAME_pack_errors (v : CNAME) (buf : List Nat) :
    errors_in (CNAME.pack v buf) encode_err := by
  unfold CNAME.pack
  refine errors_in_bind (pack_domain_name_errors _ _) ?_
  intro buf2
  exact errors_in_ok _ _

theorem RecourseRecord_pack_errors (r : RecourseRecord) (buf : List Nat) :
    errors_in (RecourseRecord.pack r buf) encode_err := by
  cases r with
  | A v => exact errors_in_ok _ _
  | AAAA v => exact errors_in_ok _ _
  | CNAME v => exact CNAME_pack_errors v buf
  | Opt v => exact Opt_pack_options_errors v.option buf
  | Unknown v => exact RFC3597_pack_errors v buf

theorem RecourseRecordHdr_pack_errors (h : RecourseRecordHdr) (buf : List Nat) :
    errors_in (RecourseRecordHdr.pack h buf) encode_err := by
  unfold RecourseRecordHdr.pack
  refine errors_in_bind (pack_domain_name_errors _ _) ?_
  intro buf2
  exact errors_in_ok _ _

theorem Question_pack_errors (q : Question) (buf : List Nat) :
    errors_in (Question.pack q buf) encode_err := by
  unfold Question.pack
  refine errors_in_bind (pack_domain_name_errors _ _) ?_
  intro buf2
  exact errors_in_ok _ _

theorem pack_questions_errors : ∀ (qs : List Question) (buf : List Nat),
    errors_in (pack_questions qs buf) encode_err := by
  intro qs
  induction qs with
  | nil => intro buf; rw [pack_questions]; exact errors_in_ok _ _
  | cons q rest ih =>
    intro buf
    rw [pack_questions]
    refine errors_in_bind (Question_pack_errors _ _) ?_
    intro buf2
    exact ih _

theorem pack_records_errors : ∀ (rs : List RecourseRecord) (buf : List Nat),
    errors_in (pack_records rs buf) encode_err := by
  intro rs
  induction rs with
  | nil => intro buf; rw [pack_records]; exact errors_in_ok _ _
  | cons r rest ih =>
    intro buf
    rw [pack_records]
    refine errors_in_bind (RecourseRecordHdr_pack_errors _ _) ?_
    intro buf2
    refine errors_in_bind (RecourseRecord_pack_errors _ _) ?_
    intro buf3
    exact ih _

theorem pack_additional_errors (r_code : Nat) :
    ∀ (rs : List RecourseRecord) (buf : List Nat),
      errors_in (pack_additional r_code rs buf) encode_err := by
  intro rs
  induction rs with
  | nil => intro buf; rw [pack_additional]; exact errors_in_ok _ _
  | cons r rest ih =>
    intro buf
    cases r
    all_goals rw [pack_additional]
    any_goals (intro v hv; exact RecourseRecord.noConfusion hv)
    all_goals
      refine errors_in_bind (RecourseRecordHdr_pack_errors _ _) ?_
    all_goals
      intro buf2
      refine errors_in_bind (RecourseRecord_pack_errors _ _) ?_
      intro buf3
      exact ih _

theorem encode_err_ne (e : DnsError) (h : encode_err e) :
    e ≠ .badResponseCode ∧ e ≠ .badExtendedResponseCode := by
  rcases h with ⟨s, h⟩ | h | h | h | h | h <;> subst h <;> exact ⟨by simp, by simp⟩

theorem Msg_pack_errors_low (m : Msg) (buf : List Nat)
    (hrc : m.hdr.response_code ≤ 0xF) :
    errors_in (Msg.pack m buf) encode_err := by
  unfold Msg.pack
  refine errors_in_ite_cond (fun hc => absurd hc (by omega)) ?_
  intro _
  refine errors_in_ite_cond (fun hc => absurd hc.2 (by omega)) ?_
  intro _
  refine errors_in_bind (pack_questions_errors _ _) ?_
  intro buf2
  refine errors_in_bind (pack_records_errors _ _) ?_
  intro buf3
  refine errors_in_bind (pack_records_errors _ _) ?_
  intro buf4
  refine errors_in_bind (pack_additional_errors _ _ _) ?_
  intro buf5
  exact errors_in_ok _ _

/-- C6: `Msg::pack` rejects a response code above `0xFFF` with the
bad-response-code error; rejects a response code in `[0x10, 0xFFF]` with the
bad-extended-response-code error when no OPT record is present in the
additional section; and a response code of at most `0xF` can never produce
either of these two errors. -/
theorem claim_C6 : ∀ (m : Msg) (buf : List Nat),
    (0xFFF < m.hdr.response_code → Msg.pack m buf = .error .badResponseCode)
    ∧ (m.hdr.response_code ≤ 0xFFF → 0xF < m.hdr.response_code → m.is_edns0 = none →
        Msg.pack m buf = .error .badExtendedResponseCode)
    ∧ (m.hdr.response_code ≤ 0xF →
        Msg.pack m buf ≠ .error .badResponseCode
        ∧ Msg.pack m buf ≠ .error .badExtendedResponseCode) := by
  intro m buf
  refine ⟨?_, ?_, ?_⟩
  · intro h
    unfold Msg.pack
    rw [if_pos h]
  · intro h1 h2 h3
    unfold Msg.pack
    rw [if_neg (by omega)]
    rw [if_pos ⟨h3, h2⟩]
  · intro hrc
    have he := Msg_pack_errors_low m buf hrc
    constructor
    · intro hc
      exact (encode_err_ne _ (he _ hc)).1 rfl
    · intro hc
      exact (encode_err_ne _ (he _ hc)).2 rfl

/-- Witness for C6: the three branches on concrete messages — response code
`0x1000` is rejected outright, `0x10` without OPT is rejected as a bad
extended response code, and the empty message with code 0 packs to the bare
12-byte header. -/
theorem claim_C6_witness :
    Msg.pack ⟨⟨1, false, 0, false, false, false, false, false, false, false, 0x1000⟩,
        [], [], [], []⟩ [] = .error .badResponseCode
    ∧ Msg.pack ⟨⟨1, false, 0, false, false, false, false, false, false, false, 0x10⟩,
        [], [], [], []⟩ [] = .error .badExtendedResponseCode
    ∧ Msg.pack ⟨⟨1, false, 0, false, false, false, false, false, false, false, 0⟩,
        [], [], [], []⟩ [] ≠ .error .badResponseCode := by
  refine ⟨?_, ?_, ?_⟩
  · exact (claim_C6 _ []).1 (by decide)
  · exact (claim_C6 _ []).2.1 (by decide) (by decide) (by decide)
  · exact ((claim_C6 _ []).2.2 (by decide)).1

end Dns

namespace Dns

theorem take_set_of_le (l : List Nat) :
    ∀ (i v n : Nat), n ≤ i → (l.set i v).take n = l.take n := by
  induction l with
  | nil => intro i v n h; rfl
  | cons a l ih =>
    intro i v n h
    cases i with
    | zero =>
      have : n = 0 := by omega
      subst this; rfl
    | succ i =>
      cases n with
      | zero => rfl
      | succ n =>
        simp only [List.set, List.take]
        rw [ih i v n (by omega)]

/-- Growth invariant used to locate the header bytes of a packed message:
the first 12 bytes survive and the buffer does not shrink. -/
def grows12 (buf out : List Nat) : Prop :=
  out.take 12 = buf.take 12 ∧ buf.length ≤ out.length

theorem grows12_refl (buf : List Nat) : grows12 buf buf := ⟨rfl, le_refl _⟩

theorem grows12_trans {a b c : List Nat} (h1 : grows12 a b) (h2 : grows12 b c) :
    grows12 a c := ⟨h2.1.trans h1.1, h1.2.trans h2.2⟩

theorem grows12_append (buf t : List Nat) (h : 12 ≤ buf.length) :
    grows12 buf (buf ++ t) := by
  constructor
  · exact List.take_append_of_le_length h
  · simp

theorem set_value_offset_take (buf : List Nat) (start v k : Nat) (h : k ≤ start) :
    (set_value_offset buf start v).take k = buf.take k := by
  unfold set_value_offset
  rw [take_set_of_le _ _ _ _ (by omega), take_set_of_le _ _ _ _ h]

theorem set_value_offset_length (buf : List Nat) (start v : Nat) :
    (set_value_offset buf start v).length = buf.length := by
  simp [set_value_offset]

theorem grows12_set_value_offset (buf : List Nat) (start v : Nat) (h : 12 ≤ start) :
    grows12 buf (set_value_offset buf start v) :=
  ⟨set_value_offset_take buf start v 12 h, by rw [set_value_offset_length]⟩

theorem pack_labels_append : ∀ (labels : List (List Nat)) (buf out : List Nat),
    pack_labels labels buf = .ok out → ∃ t, out = buf ++ t ∧ 1 ≤ t.length := by
  intro labels
  induction labels with
  | nil =>
    intro buf out h
    rw [pack_labels] at h
    refine ⟨[0], (Except.ok.inj h).symm, by simp⟩
  | cons seg rest ih =>
    intro buf out h
    rw [pack_labels] at h
    split_ifs at h with h1 h2
    · exact ih buf out h
    · obtain ⟨t, ht, hl⟩ := ih _ _ h
      exact ⟨[seg.length] ++ seg ++ t, by simp [ht], by simp⟩

theorem pack_domain_name_append (input buf out : List Nat)
    (h : pack_domain_name input buf = .ok out) : ∃ t, out = buf ++ t ∧ 1 ≤ t.length :=
  pack_labels_append _ buf out h

theorem bind_ok_inv {α β : Type} {ma : Except DnsError α} {f : α → Except DnsError β}
    {b : β} (h : ma.bind f = .ok b) : ∃ a, ma = .ok a ∧ f a = .ok b := by
  cases ma with
  | error e => exact absurd h (by simp [Except.bind])
  | ok a => exact ⟨a, rfl, by simpa [Except.bind] using h⟩

theorem RecourseRecordHdr_pack_append (hd : RecourseRecordHdr) (buf out : List Nat)
    (h : RecourseRecordHdr.pack hd buf = .ok out) :
    ∃ t, out = buf ++ t ∧ 11 ≤ t.length := by
  unfold RecourseRecordHdr.pack at h
  obtain ⟨buf2, hn, h2⟩ := bind_ok_inv h
  obtain ⟨t, ht, hl⟩ := pack_domain_name_append _ _ _ hn
  refine ⟨t ++ (u16be hd.typ ++ u16be hd.class_ ++ u32be hd.ttl ++ u16be hd.rd_length),
    ?_, ?_⟩
  · rw [← Except.ok.inj h2, ht]; simp
  · simp [u16be, u32be]; omega

theorem Question_pack_append (q : Question) (buf out : List Nat)
    (h : Question.pack q buf = .ok out) : ∃ t, out = buf ++ t := by
  unfold Question.pack at h
  obtain ⟨buf2, hn, h2⟩ := bind_ok_inv h
  obtain ⟨t, ht, _⟩ := pack_domain_name_append _ _ _ hn
  exact ⟨t ++ (u16be q.q_type ++ u16be q.q_class), by rw [← Except.ok.inj h2, ht]; simp⟩

theorem NSID_pack_append (v : NSID) (buf out : List Nat)
    (h : NSID.pack v buf = .ok out) : ∃ t, out = buf ++ t := by
  unfold NSID.pack at h
  obtain ⟨bytes, hx, h2⟩ := bind_ok_inv h
  exact ⟨bytes, (Except.ok.inj h2).symm⟩

theorem error_ne_ok {α : Type} (e : DnsError) (a : α) :
    (Except.error e : Except DnsError α) ≠ .ok a := by simp

theorem SubNet_pack_append (sn : SubNet) (buf out : List Nat)
    (h : SubNet.pack sn buf = .ok out) : ∃ t, out = buf ++ t := by
  obtain ⟨f, nm, sc, addr⟩ := sn
  unfold SubNet.pack at h
  have hfin0 : (Except.ok (buf ++ u16be f ++ [nm % 256, sc % 256])
      : Except DnsError (List Nat)) = .ok out → ∃ t, out = buf ++ t := by
    intro hx
    exact ⟨u16be f ++ [nm % 256, sc % 256], by rw [← Except.ok.inj hx]; simp⟩
  have hfin : ∀ rest : List Nat, (Except.ok (buf ++ u16be f ++ [nm % 256, sc % 256] ++ rest)
      : Except DnsError (List Nat)) = .ok out → ∃ t, out = buf ++ t := by
    intro rest hx
    exact ⟨u16be f ++ [nm % 256, sc % 256] ++ rest, by rw [← Except.ok.inj hx]; simp⟩
  cases addr with
  | V4 v =>
    dsimp only at h
    split_ifs at h
    · exact hfin0 h
    · obtain ⟨y1, hy1, h2⟩ := bind_ok_inv h
      obtain ⟨y2, hy2, h3⟩ := bind_ok_inv h2
      exact hfin _ h3
    · obtain ⟨y1, hy1, h2⟩ := bind_ok_inv h
      exact hfin _ h2
  | V6 v =>
    dsimp only at h
    cases hv : to_ipv4_mapped v with
    | some v4 =>
      rw [hv] at h
      split_ifs at h
      · exact hfin0 h
      · obtain ⟨y1, hy1, h2⟩ := bind_ok_inv h
        obtain ⟨y2, hy2, h3⟩ := bind_ok_inv h2
        exact hfin _ h3
      · obtain ⟨y1, hy1, h2⟩ := bind_ok_inv h
        exact hfin _ h2
    | none =>
      rw [hv] at h
      split_ifs at h
      · exact hfin0 h
      · obtain ⟨y1, hy1, h2⟩ := bind_ok_inv h
        exact absurd hy1 (error_ne_ok _ _)
      · obtain ⟨y1, hy1, h2⟩ := bind_ok_inv h
        exact hfin _ h2

theorem EDNS0_pack_append (el : EDNS0) (buf out : List Nat)
    (h : EDNS0.pack el buf = .ok out) : ∃ t, out = buf ++ t := by
  cases el with
  | Nid v => exact NSID_pack_append v buf out h
  | SubNet v => exact SubNet_pack_append v buf out h
  | Local v => exact ⟨v.data, (Except.ok.inj h).symm⟩

end Dns

namespace Dns

theorem grows12_set_rd (buf data : List Nat) (h : 14 ≤ buf.length) :
    grows12 buf (set_rd buf data) := by
  unfold set_rd set_rd_length
  refine grows12_trans (grows12_set_value_offset buf (buf.length - 2) data.length (by omega))
    (grows12_append _ data ?_)
  rw [set_value_offset_length]
  omega

theorem A_pack_grows (v : A) (buf out : List Nat) (h14 : 14 ≤ buf.length)
    (h : A.pack v buf = .ok out) : grows12 buf out := by
  unfold A.pack at h
  rw [← Except.ok.inj h]
  exact grows12_set_rd _ _ h14

theorem AAAA_pack_grows (v : AAAA) (buf out : List Nat) (h14 : 14 ≤ buf.length)
    (h : AAAA.pack v buf = .ok out) : grows12 buf out := by
  unfold AAAA.pack at h
  rw [← Except.ok.inj h]
  exact grows12_set_rd _ _ h14

theorem CNAME_pack_grows (v : CNAME) (buf out : List Nat) (h14 : 14 ≤ buf.length)
    (h : CNAME.pack v buf = .ok out) : grows12 buf out := by
  unfold CNAME.pack at h
  obtain ⟨buf2, hn, h2⟩ := bind_ok_inv h
  obtain ⟨t, ht, _⟩ := pack_domain_name_append _ _ _ hn
  rw [← Except.ok.inj h2]
  refine grows12_trans (a := buf) (b := buf2) ?_ ?_
  · rw [ht]; exact grows12_append _ _ (by omega)
  · refine grows12_set_value_offset _ _ _ (by omega)

theorem RFC3597_pack_grows (v : RFC3597) (buf out : List Nat) (h12 : 12 ≤ buf.length)
    (h : RFC3597.pack v buf = .ok out) : grows12 buf out := by
  unfold RFC3597.pack at h
  obtain ⟨bytes, hx, h2⟩ := bind_ok_inv h
  rw [← Except.ok.inj h2]
  exact grows12_append _ _ h12

theorem Opt_pack_options_grows : ∀ (options : List EDNS0) (buf out : List Nat),
    12 ≤ buf.length → Opt.pack_options options buf = .ok out → grows12 buf out := by
  intro options
  induction options with
  | nil =>
    intro buf out h12 h
    rw [Opt.pack_options] at h
    rw [← Except.ok.inj h]
    exact grows12_refl _
  | cons el rest ih =>
    intro buf out h12 h
    rw [Opt.pack_options] at h
    obtain ⟨buf3, hel, h2⟩ := bind_ok_inv h
    obtain ⟨t, ht⟩ := EDNS0_pack_append _ _ _ hel
    have hg1 : grows12 buf (buf ++ u16be el.option ++ u16be 0) := by
      refine grows12_trans (grows12_append _ _ h12) (grows12_append _ _ ?_)
      simp
      omega
    have hg2 : grows12 (buf ++ u16be el.option ++ u16be 0) buf3 := by
      rw [ht]
      refine grows12_append _ _ ?_
      simp [u16be]
      omega
    have hlen3 : buf.length + 4 ≤ buf3.length := by
      have := hg2.2
      simp [u16be] at this ⊢
      omega
    have hstart : buf.length + 4 = (buf ++ u16be el.option ++ u16be 0).length := by
      simp [u16be]
    have hg3 : grows12 buf3
        (set_value_offset buf3 ((buf ++ u16be el.option ++ u16be 0).length - 2)
          (buf3.length - (buf ++ u16be el.option ++ u16be 0).length)) := by
      refine grows12_set_value_offset _ _ _ ?_
      simp [u16be]
      omega
    have hg4 := ih _ _ (by rw [set_value_offset_length]; omega) h2
    exact grows12_trans (grows12_trans (grows12_trans hg1 hg2) hg3) hg4

theorem RecourseRecord_pack_grows (r : RecourseRecord) (buf out : List Nat)
    (h14 : 14 ≤ buf.length) (h : RecourseRecord.pack r buf = .ok out) :
    grows12 buf out := by
  cases r with
  | A v => exact A_pack_grows v buf out h14 h
  | AAAA v => exact AAAA_pack_grows v buf out h14 h
  | CNAME v => exact CNAME_pack_grows v buf out h14 h
  | Opt v => exact Opt_pack_options_grows v.option buf out (by omega) h
  | Unknown v => exact RFC3597_pack_grows v buf out (by omega) h

theorem pack_questions_grows : ∀ (qs : List Question) (buf out : List Nat),
    12 ≤ buf.length → pack_questions qs buf = .ok out → grows12 buf out := by
  intro qs
  induction qs with
  | nil =>
    intro buf out h12 h
    rw [pack_questions] at h
    rw [← Except.ok.inj h]
    exact grows12_refl _
  | cons q rest ih =>
    intro buf out h12 h
    rw [pack_questions] at h
    obtain ⟨buf2, hq, h2⟩ := bind_ok_inv h
    obtain ⟨t, ht⟩ := Question_pack_append _ _ _ hq
    have hg1 : grows12 buf buf2 := by rw [ht]; exact grows12_append _ _ h12
    have hg2 := ih _ _ (by have := hg1.2; omega) h2
    exact grows12_trans hg1 hg2

theorem pack_records_grows : ∀ (rs : List RecourseRecord) (buf out : List Nat),
    12 ≤ buf.length → pack_records rs buf = .ok out → grows12 buf out := by
  intro rs
  induction rs with
  | nil =>
    intro buf out h12 h
    rw [pack_records] at h
    rw [← Except.ok.inj h]
    exact grows12_refl _
  | cons r rest ih =>
    intro buf out h12 h
    rw [pack_records] at h
    obtain ⟨buf2, hh, h2⟩ := bind_ok_inv h
    obtain ⟨buf3, hv, h3⟩ := bind_ok_inv h2
    obtain ⟨t, ht, hl⟩ := RecourseRecordHdr_pack_append _ _ _ hh
    have hg1 : grows12 buf buf2 := by rw [ht]; exact grows12_append _ _ h12
    have hlen2 : buf.length + 11 ≤ buf2.length := by rw [ht]; simp; omega
    have hg2 := RecourseRecord_pack_grows r _ _ (by omega) hv
    have hg3 := ih _ _ (by have := hg2.2; omega) h3
    exact grows12_trans (grows12_trans hg1 hg2) hg3

theorem pack_additional_grows (r_code : Nat) :
    ∀ (rs : List RecourseRecord) (buf out : List Nat),
      12 ≤ buf.length → pack_additional r_code rs buf = .ok out → grows12 buf out := by
  intro rs
  induction rs with
  | nil =>
    intro buf out h12 h
    rw [pack_additional] at h
    rw [← Except.ok.inj h]
    exact grows12_refl _
  | cons r rest ih =>
    intro buf out h12 h
    have main : ∀ buf2, (∃ t, buf2 = buf ++ t ∧ 11 ≤ t.length) →
        (RecourseRecord.pack r buf2).bind (pack_additional r_code rest) = .ok out →
        grows12 buf out := by
      intro buf2 happ hbind
      obtain ⟨t, ht, hl⟩ := happ
      obtain ⟨buf3, hv, h3⟩ := bind_ok_inv hbind
      have hg1 : grows12 buf buf2 := by rw [ht]; exact grows12_append _ _ h12
      have hlen2 : buf.length + 11 ≤ buf2.length := by rw [ht]; simp; omega
      have hg2 := RecourseRecord_pack_grows r _ _ (by omega) hv
      have hg3 := ih _ _ (by have := hg2.2; omega) h3
      exact grows12_trans (grows12_trans hg1 hg2) hg3
    cases r with
    | Opt opt =>
      rw [pack_additional] at h
      obtain ⟨buf2, hh, h2⟩ := bind_ok_inv h
      exact main buf2 (RecourseRecordHdr_pack_append _ _ _ hh) h2
    | A v =>
      rw [pack_additional] at h
      · obtain ⟨buf2, hh, h2⟩ := bind_ok_inv h
        exact main buf2 (RecourseRecordHdr_pack_append _ _ _ hh) h2
      · intro v2 hv2; exact RecourseRecord.noConfusion hv2
    | AAAA v =>
      rw [pack_additional] at h
      · obtain ⟨buf2, hh, h2⟩ := bind_ok_inv h
        exact main buf2 (RecourseRecordHdr_pack_append _ _ _ hh) h2
      · intro v2 hv2; exact RecourseRecord.noConfusion hv2
    | CNAME v =>
      rw [pack_additional] at h
      · obtain ⟨buf2, hh, h2⟩ := bind_ok_inv h
        exact main buf2 (RecourseRecordHdr_pack_append _ _ _ hh) h2
      · intro v2 hv2; exact RecourseRecord.noConfusion hv2
    | Unknown v =>
      rw [pack_additional] at h
      · obtain ⟨buf2, hh, h2⟩ := bind_ok_inv h
        exact main buf2 (RecourseRecordHdr_pack_append _ _ _ hh) h2
      · intro v2 hv2; exact RecourseRecord.noConfusion hv2

end Dns

namespace Dns

/-- C2: a successful `Msg::pack` writes, in the 12 header bytes, the
question and answer counts as the list lengths, the ADDITIONAL list's length
into the wire authority-count field (bytes 8-9), and the AUTHORITY list's
length into the wire additional-count field (bytes 10-11) — the
cross-assignment of the source. -/
theorem claim_C2 : ∀ (m : Msg) (bs : List Nat),
    Msg.pack m [] = .ok bs →
    bs.take 12
      = u16be m.hdr.id ++ u16be m.hdr.into_pkt.bits
        ++ u16be (m.question.length % 65536) ++ u16be (m.answer.length % 65536)
        ++ u16be (m.additional.length % 65536) ++ u16be (m.authority.length % 65536) := by
  intro m bs h
  unfold Msg.pack at h
  by_cases h1 : 0xFFF < m.hdr.response_code
  · rw [if_pos h1] at h
    exact absurd h (error_ne_ok _ _)
  · rw [if_neg h1] at h
    by_cases h2 : m.is_edns0 = none ∧ 0xF < m.hdr.response_code
    · rw [if_pos h2] at h
      exact absurd h (error_ne_ok _ _)
    · rw [if_neg h2] at h
      obtain ⟨b1, hq, h⟩ := bind_ok_inv h
      obtain ⟨b2, han, h⟩ := bind_ok_inv h
      obtain ⟨b3, hau, h⟩ := bind_ok_inv h
      obtain ⟨b4, had, h⟩ := bind_ok_inv h
      have hbs : bs = b4 := (Except.ok.inj h).symm
      have hblen :
          (PktMsgHeader.pack
            { m.hdr.into_pkt with
              question_count := m.question.length % 65536
              answer_count := m.answer.length % 65536
              additional_count := m.authority.length % 65536
              authority_count := m.additional.length % 65536 } []).length = 12 := by
        simp [PktMsgHeader.pack, u16be]
      have g1 := pack_questions_grows _ _ _ (by omega) hq
      have g2 := pack_records_grows _ _ _ (by have := g1.2; omega) han
      have g3 := pack_records_grows _ _ _ (by have := g1.2; have := g2.2; omega) hau
      have g4 := pack_additional_grows _ _ _ _
        (by have := g1.2; have := g2.2; have := g3.2; omega) had
      have htake : bs.take 12
          = (PktMsgHeader.pack
            { m.hdr.into_pkt with
              question_count := m.question.length % 65536
              answer_count := m.answer.length % 65536
              additional_count := m.authority.length % 65536
              authority_count := m.additional.length % 65536 } []).take 12 := by
        rw [hbs]
        exact (((g4.1.trans g3.1).trans g2.1).trans g1.1)
      rw [htake]
      rw [List.take_of_length_le (le_of_eq hblen)]
      simp [PktMsgHeader.pack, MsgHdr.into_pkt]

/-- Witness for C2: packing a message with one question and one additional
A record shows the swapped counts on the wire: byte pair 8-9 is 1 (the
additional list length) and byte pair 10-11 is 0 (the authority length). -/
theorem claim_C2_witness :
    c2packed.take 12
      = u16be c2msg.hdr.id ++ u16be c2msg.hdr.into_pkt.bits
        ++ u16be (c2msg.question.length % 65536) ++ u16be (c2msg.answer.length % 65536)
        ++ u16be (c2msg.additional.length % 65536)
        ++ u16be (c2msg.authority.length % 65536) :=
  claim_C2 c2msg c2packed (by decide)

end Dns
